import Mathlib

/-!
Verification of the planning-center-viz synchronization core.

This file gives a shallow embedding, in Lean 4, of the parts of the
repository that the checked claims are about:

* `backend/app/etl/data_processor.py` — `process_jsonapi_response`,
  `convert_complex_type_to_json`, `convert_timestamps_to_timezone`,
  `generate_dtype_mapping`;
* `backend/app/etl/pco_client.py` — `PCOClient.get`,
  `PCOClient._handle_rate_limit`, `PCOClient.get_all_pages`;
* `backend/app/services/data_sync_service.py` — `parse_event_time_ids`,
  `DataSyncService._explode_checkins`, `DataSyncService.run_sync`,
  `DataSyncService._fetch_endpoint`.

Python values are embedded as the inductive type `PyVal`; Python code that
can raise is embedded as `Except String`-valued functions, with the
exception's rendered message as the error payload.  The standard-library
primitives the code calls (`json.loads`, `json.dumps`, `ast.literal_eval`,
`str.strip`, `str.isdigit`, …) are modelled by executable Lean functions
faithful on the value fragment the repository feeds them: `None`, floats
restricted to the `NaN` the code tests for, booleans, integers, strings,
lists and string-keyed dicts.
-/

/-- Embedding of the Python values handled by the sync pipeline: `None`,
float `NaN` (the only float the code inspects specially), booleans,
integers, strings, lists, and string-keyed dicts (insertion-ordered
association lists, matching Python 3 dict semantics). -/
inductive PyVal where
  | noneV : PyVal
  | nanV : PyVal
  | boolV : Bool → PyVal
  | intV : Int → PyVal
  | strV : String → PyVal
  | listV : List PyVal → PyVal
  | dictV : List (String × PyVal) → PyVal

/-- Python truthiness (`bool(v)`) on the embedded fragment.  `NaN` is a
nonzero float, hence truthy. -/
def pyTruthy : PyVal → Bool
  | PyVal.noneV => false
  | PyVal.nanV => true
  | PyVal.boolV b => b
  | PyVal.intV n => n != 0
  | PyVal.strV s => s != ""
  | PyVal.listV xs => !xs.isEmpty
  | PyVal.dictV fs => !fs.isEmpty

/-- Model of Python `str.strip()`: drop leading and trailing whitespace. -/
def pyStrip (s : String) : String :=
  String.mk (((s.data.dropWhile Char.isWhitespace).reverse.dropWhile
    Char.isWhitespace).reverse)

/-- Model of Python `str.startswith`. -/
def strStarts (s pre : String) : Bool := pre.data.isPrefixOf s.data

/-- Model of Python `str.endswith`. -/
def strEnds (s suf : String) : Bool := suf.data.isSuffixOf s.data

/-- Model of Python `str.isdigit()` on ASCII content: nonempty and all
characters are decimal digits. -/
def pyIsDigit (s : String) : Bool := !s.data.isEmpty && s.data.all Char.isDigit

/-- Numeric value of a list of decimal digit characters (model of `int(s)`
on a digit-only string). -/
def digitsToNat (ds : List Char) : Nat :=
  ds.foldl (fun a c => a * 10 + (c.toNat - 48)) 0

/-- Drop leading JSON/Python whitespace. -/
def skipWs (cs : List Char) : List Char := cs.dropWhile Char.isWhitespace

/-- Consume an expected literal word, returning the remaining input. -/
def dropLit (lit : List Char) (cs : List Char) : Option (List Char) :=
  if lit.isPrefixOf cs then Option.some (cs.drop lit.length) else Option.none

/-- True when the input continues with a character that would turn a
scanned integer into a float literal (outside the modelled fragment). -/
def startsFloatTail (cs : List Char) : Bool :=
  match cs with
  | c :: _ => c = '.' || c = 'e' || c = 'E'
  | [] => false

/-- Scan the digits of a decimal integer with the leading-zero restriction
shared by JSON and Python literals (a multi-digit literal may not start
with `0`); a following `.`, `e` or `E` would start a float literal, which
is outside the modelled fragment, so it is rejected. -/
def scanIntCore (neg : Bool) (cs1 : List Char) : Option (Int × List Char) :=
  let ds := cs1.takeWhile Char.isDigit
  let rest := cs1.dropWhile Char.isDigit
  match ds with
  | [] => Option.none
  | d :: ds' =>
    if d = '0' && !ds'.isEmpty then Option.none
    else if startsFloatTail rest then Option.none
    else
      let n : Int := Int.ofNat (digitsToNat (d :: ds'))
      Option.some (if neg then -n else n, rest)

/-- Scan a decimal integer literal, with optional leading minus sign. -/
def scanInt (cs : List Char) : Option (Int × List Char) :=
  match cs with
  | c :: rest => if c = '-' then scanIntCore true rest else scanIntCore false (c :: rest)
  | [] => Option.none

/-- Translate a JSON string escape character. -/
def jsonUnescape? (c : Char) : Option Char :=
  if c = '"' then Option.some '"'
  else if c = '\\' then Option.some '\\'
  else if c = '/' then Option.some '/'
  else if c = 'n' then Option.some '\n'
  else if c = 't' then Option.some '\t'
  else if c = 'r' then Option.some '\r'
  else if c = 'b' then Option.some (Char.ofNat 8)
  else if c = 'f' then Option.some (Char.ofNat 12)
  else Option.none

/-- Scan the body of a double-quoted JSON string (opening quote already
consumed), returning its characters and the input after the closing
quote. -/
def scanJStr : List Char → Option (List Char × List Char)
  | [] => Option.none
  | c :: rest =>
    if c = '"' then Option.some ([], rest)
    else if c = '\\' then
      match rest with
      | [] => Option.none
      | e :: rest2 =>
        match jsonUnescape? e with
        | Option.some ch => (scanJStr rest2).map (fun p => (ch :: p.1, p.2))
        | Option.none => Option.none
    else (scanJStr rest).map (fun p => (c :: p.1, p.2))

mutual

/-- Fuel-indexed recursive-descent parser for the JSON value fragment
produced and consumed by the pipeline (model of `json.loads`): `null`,
`true`/`false`, `NaN`, integers, double-quoted strings, arrays.  Each
recursive step consumes at least one input character, so fuel
`length + 1` never runs out. -/
def jlVal : Nat → List Char → Option (PyVal × List Char)
  | 0, _ => Option.none
  | Nat.succ f, cs0 =>
    match skipWs cs0 with
    | [] => Option.none
    | c :: rest =>
      if c = '[' then
        match skipWs rest with
        | [] => Option.none
        | r0 :: rr =>
          if r0 = ']' then Option.some (PyVal.listV [], rr)
          else
            match jlItems f (r0 :: rr) with
            | Option.some (xs, r2) => Option.some (PyVal.listV xs, r2)
            | Option.none => Option.none
      else if c = '"' then
        match scanJStr rest with
        | Option.some (content, r2) =>
          Option.some (PyVal.strV (String.mk content), r2)
        | Option.none => Option.none
      else if c = 'n' then
        (dropLit ['n', 'u', 'l', 'l'] (c :: rest)).map
          (fun r => (PyVal.noneV, r))
      else if c = 't' then
        (dropLit ['t', 'r', 'u', 'e'] (c :: rest)).map
          (fun r => (PyVal.boolV true, r))
      else if c = 'f' then
        (dropLit ['f', 'a', 'l', 's', 'e'] (c :: rest)).map
          (fun r => (PyVal.boolV false, r))
      else if c = 'N' then
        (dropLit ['N', 'a', 'N'] (c :: rest)).map
          (fun r => (PyVal.nanV, r))
      else
        (scanInt (c :: rest)).map (fun p => (PyVal.intV p.1, p.2))

/-- Comma-separated JSON array items up to the closing bracket. -/
def jlItems : Nat → List Char → Option (List PyVal × List Char)
  | 0, _ => Option.none
  | Nat.succ f, cs =>
    match jlVal f cs with
    | Option.none => Option.none
    | Option.some (v, r1) =>
      match skipWs r1 with
      | [] => Option.none
      | r0 :: r2 =>
        if r0 = ',' then (jlItems f r2).map (fun p => (v :: p.1, p.2))
        else if r0 = ']' then Option.some ([v], r2)
        else Option.none

end

/-- Model of `json.loads` on the fragment above: parse one value and
require only whitespace to remain. -/
def jsonLoads (s : String) : Option PyVal :=
  match jlVal (s.data.length + 1) s.data with
  | Option.some (v, rest) =>
    if (skipWs rest).isEmpty then Option.some v else Option.none
  | Option.none => Option.none

/-- The apostrophe character, used for Python single-quoted strings. -/
def squote : Char := Char.ofNat 39

/-- Translate a Python string escape character. -/
def pyUnescape? (c : Char) : Option Char :=
  if c = '"' then Option.some '"'
  else if c = squote then Option.some squote
  else if c = '\\' then Option.some '\\'
  else if c = 'n' then Option.some '\n'
  else if c = 't' then Option.some '\t'
  else if c = 'r' then Option.some '\r'
  else Option.none

/-- Scan the body of a Python string literal quoted by `q` (opening quote
already consumed). -/
def scanPyStr (q : Char) : List Char → Option (List Char × List Char)
  | [] => Option.none
  | c :: rest =>
    if c = q then Option.some ([], rest)
    else if c = '\\' then
      match rest with
      | [] => Option.none
      | e :: rest2 =>
        match pyUnescape? e with
        | Option.some ch => (scanPyStr q rest2).map (fun p => (ch :: p.1, p.2))
        | Option.none => Option.none
    else (scanPyStr q rest).map (fun p => (c :: p.1, p.2))

mutual

/-- Fuel-indexed parser for the Python literal fragment the sync code feeds
to `ast.literal_eval`: `None`, `True`, `False`, decimal integers (leading
zeros are a syntax error, as in Python 3), single- or double-quoted
strings, and list displays. -/
def plVal : Nat → List Char → Option (PyVal × List Char)
  | 0, _ => Option.none
  | Nat.succ f, cs0 =>
    match skipWs cs0 with
    | [] => Option.none
    | c :: rest =>
      if c = '[' then
        match skipWs rest with
        | ']' :: r2 => Option.some (PyVal.listV [], r2)
        | rest2 =>
          match plItems f rest2 with
          | Option.some (xs, r2) => Option.some (PyVal.listV xs, r2)
          | Option.none => Option.none
      else if c = '"' then
        match scanPyStr '"' rest with
        | Option.some (content, r2) =>
          Option.some (PyVal.strV (String.mk content), r2)
        | Option.none => Option.none
      else if c = squote then
        match scanPyStr squote rest with
        | Option.some (content, r2) =>
          Option.some (PyVal.strV (String.mk content), r2)
        | Option.none => Option.none
      else if c = 'N' then
        (dropLit ['N', 'o', 'n', 'e'] (c :: rest)).map
          (fun r => (PyVal.noneV, r))
      else if c = 'T' then
        (dropLit ['T', 'r', 'u', 'e'] (c :: rest)).map
          (fun r => (PyVal.boolV true, r))
      else if c = 'F' then
        (dropLit ['F', 'a', 'l', 's', 'e'] (c :: rest)).map
          (fun r => (PyVal.boolV false, r))
      else
        (scanInt (c :: rest)).map (fun p => (PyVal.intV p.1, p.2))

/-- Comma-separated Python list items up to the closing bracket. -/
def plItems : Nat → List Char → Option (List PyVal × List Char)
  | 0, _ => Option.none
  | Nat.succ f, cs =>
    match plVal f cs with
    | Option.none => Option.none
    | Option.some (v, r1) =>
      match skipWs r1 with
      | ',' :: r2 => (plItems f r2).map (fun p => (v :: p.1, p.2))
      | ']' :: r2 => Option.some ([v], r2)
      | _ => Option.none

end

/-- Model of `ast.literal_eval` on the fragment above. -/
def astLiteralEval (s : String) : Option PyVal :=
  match plVal (s.data.length + 1) s.data with
  | Option.some (v, rest) =>
    if (skipWs rest).isEmpty then Option.some v else Option.none
  | Option.none => Option.none

/-- Embedding of `parse_event_time_ids` from
`backend/app/services/data_sync_service.py`: parse a check-in row's
`event_time_ids` cell — a native list, `None`/`NaN`, or a string holding a
JSON array/JSON scalar, a Python literal, or a bare id — into a list of
ids.  Mirrors the source's branch order: list passthrough, null/NaN to
`[]`, empty-after-strip to `[]`, the JSON attempt guarded by a
bracket/quote shape test, the `ast.literal_eval` attempt, the
digit-string/int fallback, and the final single-value wrap. -/
def parse_event_time_ids (val : PyVal) : List PyVal :=
  match val with
  | PyVal.listV xs => xs
  | PyVal.noneV => []
  | PyVal.nanV => []
  | PyVal.strV s =>
    let t := pyStrip s
    if t = "" then []
    else
      let jsonShaped :=
        (strStarts t "[" && strEnds t "]") || (strStarts t "\"" && strEnds t "\"")
      let viaJson : Option (List PyVal) :=
        if jsonShaped then
          match jsonLoads t with
          | Option.some (PyVal.listV xs) => Option.some xs
          | Option.some v => Option.some (if pyTruthy v then [v] else [])
          | Option.none => Option.none
        else Option.none
      match viaJson with
      | Option.some r => r
      | Option.none =>
        match astLiteralEval t with
        | Option.some (PyVal.listV xs) => xs
        | Option.some v => if pyTruthy v then [v] else []
        | Option.none =>
          if pyIsDigit t then [PyVal.intV (Int.ofNat (digitsToNat t.data))]
          else [PyVal.strV t]
  | v => [v]

/-- pandas missingness test (`Series.notna`) on an embedded cell: `None`
and `NaN` are the missing values. -/
def pyNotna : PyVal → Bool
  | PyVal.noneV => false
  | PyVal.nanV => false
  | _ => true

/-- pandas elementwise comparison with the empty string: a non-string cell
never equals `''`. -/
def neEmptyStr : PyVal → Bool
  | PyVal.strV s => s != ""
  | _ => true

/-- Embedding of `DataSyncService._explode_checkins` acting on the
`event_time_ids` column of the check-ins table: each row is a payload
(the row's other columns, abstracted as `α`) paired with the cell value.
Mirrors the source: apply `parse_event_time_ids` to the column, explode
(pandas emits one row per list element, and a single `NaN` row for an
empty list), then drop rows whose exploded cell is missing, then drop rows
whose exploded cell is the empty string. -/
def explode_checkins {α : Type} (rows : List (α × PyVal)) : List (α × PyVal) :=
  let parsed : List (α × List PyVal) :=
    rows.map (fun r => (r.1, parse_event_time_ids r.2))
  let exploded := parsed.flatMap (fun r =>
    match r.2 with
    | [] => [(r.1, PyVal.nanV)]
    | xs => xs.map (fun v => (r.1, v)))
  (exploded.filter (fun r => pyNotna r.2)).filter (fun r => neEmptyStr r.2)

/-! Character-level helper lemmas. -/

lemma digit_not_ws {c : Char} (h : c.isDigit = true) : c.isWhitespace = false := by
  cases hw : c.isWhitespace
  · rfl
  · exfalso
    simp only [Char.isWhitespace, Bool.or_eq_true, decide_eq_true_eq] at hw
    rcases hw with ((h1 | h1) | h1) | h1 <;> subst h1 <;> exact absurd h (by decide)

lemma digit_ne_of_not_digit {c x : Char} (hc : c.isDigit = true)
    (hx : x.isDigit = false) : ¬(c = x) := by
  intro h
  rw [h] at hc
  rw [hc] at hx
  exact Bool.noConfusion hx

lemma digit_toNat_ge_49 {d : Char} (hd : d.isDigit = true) (h0 : ¬(d = '0')) :
    49 ≤ d.toNat := by
  simp only [Char.isDigit, Bool.and_eq_true, decide_eq_true_eq] at hd
  obtain ⟨h1, _⟩ := hd
  have hv1 : 48 ≤ d.val.toNat := by exact_mod_cast h1
  have hne : d.val.toNat ≠ 48 := by
    intro hc
    apply h0
    apply Char.ext
    apply UInt32.toNat.inj
    exact hc
  simp only [Char.toNat]
  omega

lemma dropWhile_ws_of_digits {cs : List Char} (h : cs.all Char.isDigit = true) :
    cs.dropWhile Char.isWhitespace = cs := by
  cases cs with
  | nil => rfl
  | cons c t =>
    have hc : c.isDigit = true := by
      simp only [List.all_cons, Bool.and_eq_true] at h
      exact h.1
    simp [List.dropWhile_cons, digit_not_ws hc]

lemma pyStrip_of_digits {cs : List Char} (h : cs.all Char.isDigit = true) :
    pyStrip (String.mk cs) = String.mk cs := by
  unfold pyStrip
  have h1 : (String.mk cs).data = cs := rfl
  rw [h1, dropWhile_ws_of_digits h]
  have h2 : cs.reverse.all Char.isDigit = true := by rw [List.all_reverse]; exact h
  rw [dropWhile_ws_of_digits h2, List.reverse_reverse]

lemma digitsToNat_aux_ge {ds : List Char} {a : Nat} (h : 1 ≤ a) :
    1 ≤ ds.foldl (fun a c => a * 10 + (c.toNat - 48)) a := by
  induction ds generalizing a with
  | nil => simpa using h
  | cons c t ih =>
    simp only [List.foldl_cons]
    apply ih
    omega

lemma digitsToNat_pos {d : Char} {ds : List Char} (hd : d.isDigit = true)
    (hne : ¬(d = '0')) : 1 ≤ digitsToNat (d :: ds) := by
  unfold digitsToNat
  simp only [List.foldl_cons]
  apply digitsToNat_aux_ge
  have := digit_toNat_ge_49 hd hne
  omega

lemma takeWhile_digits_self {cs : List Char} (h : cs.all Char.isDigit = true) :
    cs.takeWhile Char.isDigit = cs :=
  List.takeWhile_eq_self_iff.mpr (by simpa [List.all_eq_true] using h)

lemma dropWhile_digits_nil {cs : List Char} (h : cs.all Char.isDigit = true) :
    cs.dropWhile Char.isDigit = [] :=
  List.dropWhile_eq_nil_iff.mpr (by simpa [List.all_eq_true] using h)

lemma astLiteralEval_digits {d : Char} {t : List Char} (hd : d.isDigit = true)
    (ht : t.all Char.isDigit = true) :
    astLiteralEval (String.mk (d :: t)) =
      (if d = '0' && !t.isEmpty then Option.none
       else Option.some (PyVal.intV (Int.ofNat (digitsToNat (d :: t))))) := by
  have hall : (d :: t).all Char.isDigit = true := by
    simp only [List.all_cons, Bool.and_eq_true]
    exact ⟨hd, ht⟩
  unfold astLiteralEval
  have hdata : (String.mk (d :: t)).data = d :: t := rfl
  rw [hdata]
  show (match plVal ((d :: t).length + 1) (d :: t) with
    | Option.some (v, rest) =>
      if (skipWs rest).isEmpty then Option.some v else Option.none
    | Option.none => Option.none) = _
  have hplv : plVal ((d :: t).length + 1) (d :: t) =
      (if d = '0' && !t.isEmpty then Option.none
       else Option.some (PyVal.intV (Int.ofNat (digitsToNat (d :: t))), [])) := by
    show plVal (Nat.succ ((d :: t).length)) (d :: t) = _
    rw [plVal]
    rw [show skipWs (d :: t) = d :: t from dropWhile_ws_of_digits hall]
    dsimp only
    rw [if_neg (digit_ne_of_not_digit hd (by decide)),
        if_neg (digit_ne_of_not_digit hd (by decide)),
        if_neg (digit_ne_of_not_digit hd (by decide)),
        if_neg (digit_ne_of_not_digit hd (by decide)),
        if_neg (digit_ne_of_not_digit hd (by decide)),
        if_neg (digit_ne_of_not_digit hd (by decide))]
    rw [show scanInt (d :: t) =
        scanIntCore false (d :: t) from by
      unfold scanInt
      dsimp only
      rw [if_neg (digit_ne_of_not_digit hd (by decide))]]
    unfold scanIntCore
    rw [takeWhile_digits_self hall, dropWhile_digits_nil hall]
    dsimp only
    cases h0 : (decide (d = '0') && !t.isEmpty) <;> rfl
  rw [hplv]
  cases h0 : (decide (d = '0') && !t.isEmpty) <;> rfl

lemma beq_false_of_digit {d x : Char} (hd : d.isDigit = true)
    (hx : x.isDigit = false) : (x == d) = false :=
  beq_eq_false_iff_ne.mpr (fun h => digit_ne_of_not_digit hd hx h.symm)

lemma jsonShaped_digits_false {d : Char} {t : List Char} (hd : d.isDigit = true) :
    ((strStarts (String.mk (d :: t)) "[" && strEnds (String.mk (d :: t)) "]") ||
     (strStarts (String.mk (d :: t)) "\"" && strEnds (String.mk (d :: t)) "\"")) = false := by
  have h1 : strStarts (String.mk (d :: t)) "[" = false := by
    have hbeq : (('[' : Char) == d) = false :=
      beq_false_of_digit hd (show ('[' : Char).isDigit = false from by decide)
    show ((('[' : Char) == d) && List.isPrefixOf [] t) = false
    rw [hbeq]
    rfl
  have h2 : strStarts (String.mk (d :: t)) "\"" = false := by
    have hbeq : (('"' : Char) == d) = false :=
      beq_false_of_digit hd (show ('"' : Char).isDigit = false from by decide)
    show ((('"' : Char) == d) && List.isPrefixOf [] t) = false
    rw [hbeq]
    rfl
  rw [h1, h2]
  rfl

lemma parse_event_time_ids_digits {cs : List Char} (hne : cs ≠ [])
    (hdig : cs.all Char.isDigit = true) :
    parse_event_time_ids (PyVal.strV (String.mk cs)) =
      (if cs = ['0'] then [] else [PyVal.intV (Int.ofNat (digitsToNat cs))]) := by
  obtain ⟨d, t, rfl⟩ : ∃ d t, cs = d :: t := by
    cases cs with
    | nil => exact absurd rfl hne
    | cons d t => exact ⟨d, t, rfl⟩
  have hd : d.isDigit = true := by
    have h := hdig
    simp only [List.all_cons, Bool.and_eq_true] at h
    exact h.1
  have ht : t.all Char.isDigit = true := by
    have h := hdig
    simp only [List.all_cons, Bool.and_eq_true] at h
    exact h.2
  simp only [parse_event_time_ids]
  rw [pyStrip_of_digits hdig]
  rw [if_neg (show ¬(String.mk (d :: t) = "") from by
    intro h
    exact List.noConfusion (congrArg String.data h))]
  rw [jsonShaped_digits_false hd]
  simp only [Bool.false_eq_true, if_false]
  rw [astLiteralEval_digits hd ht]
  by_cases hd0 : d = '0'
  · subst hd0
    cases t with
    | nil => rfl
    | cons x xs =>
      simp only [List.isEmpty_cons, Bool.not_false, decide_True, Bool.and_self]
      have hpd : pyIsDigit (String.mk ('0' :: x :: xs)) = true := by
        unfold pyIsDigit
        rw [show (String.mk ('0' :: x :: xs)).data = '0' :: x :: xs from rfl]
        rw [hdig]
        rfl
      rw [if_neg (show ¬(('0' :: x :: xs) = ['0']) from by
        intro h
        exact List.noConfusion (List.cons.inj h).2)]
      simp only [hpd, if_true]
  · have hcond : (decide (d = '0') && !t.isEmpty) = false := by
      rw [decide_eq_false hd0]
      rfl
    rw [hcond]
    simp only [Bool.false_eq_true, if_false]
    have hpos : 1 ≤ digitsToNat (d :: t) := digitsToNat_pos hd hd0
    have htr : pyTruthy (PyVal.intV (Int.ofNat (digitsToNat (d :: t)))) = true := by
      simp only [pyTruthy]
      rw [bne_iff_ne, Int.ofNat_eq_natCast]
      omega
    rw [htr]
    rw [if_neg (show ¬((d :: t) = ['0']) from by
      intro h
      exact hd0 (List.cons.inj h).1)]
    rfl

lemma parse_event_time_ids_ws {s : String}
    (h : s.data.all Char.isWhitespace = true) :
    parse_event_time_ids (PyVal.strV s) = [] := by
  have h1 : pyStrip s = "" := by
    unfold pyStrip
    have e1 : s.data.dropWhile Char.isWhitespace = [] :=
      List.dropWhile_eq_nil_iff.mpr (by simpa [List.all_eq_true] using h)
    rw [e1]
    rfl
  simp only [parse_event_time_ids]
  rw [h1]
  rfl

/-- C10: `parse_event_time_ids` on its accepted shapes, amended.  The
claim's statements for `None`, `NaN` and blank strings hold; the
digit-string clause holds for every digit-only string except `"0"`:
`ast.literal_eval` parses `"0"` to the integer `0`, which is falsy, so the
`[parsed] if parsed else []` branch returns the empty list instead of
`[0]` (digit strings with leading zeros are not integer literals and take
the `int(...)` fallback, so `"00"` still yields `[0]`). -/
theorem C10_parse_event_time_ids_amended :
    parse_event_time_ids PyVal.noneV = [] ∧
    parse_event_time_ids PyVal.nanV = [] ∧
    (∀ s : String, s.data.all Char.isWhitespace = true →
      parse_event_time_ids (PyVal.strV s) = []) ∧
    (∀ cs : List Char, cs ≠ [] → cs.all Char.isDigit = true →
      parse_event_time_ids (PyVal.strV (String.mk cs)) =
        (if cs = ['0'] then [] else [PyVal.intV (Int.ofNat (digitsToNat cs))])) :=
  ⟨rfl, rfl, fun _ h => parse_event_time_ids_ws h,
   fun _ hne hdig => parse_event_time_ids_digits hne hdig⟩

/-- Witness for C10 at concrete inputs: a blank string and the digit
strings `"56"` and `"0"`. -/
theorem C10_parse_event_time_ids_amended_witness :
    parse_event_time_ids (PyVal.strV "  ") = [] ∧
    parse_event_time_ids (PyVal.strV (String.mk ['5', '6'])) =
      (if ['5', '6'] = ['0'] then []
       else [PyVal.intV (Int.ofNat (digitsToNat ['5', '6']))]) ∧
    parse_event_time_ids (PyVal.strV (String.mk ['0'])) =
      (if ['0'] = ['0'] then [] else [PyVal.intV (Int.ofNat (digitsToNat ['0']))]) :=
  ⟨C10_parse_event_time_ids_amended.2.2.1 "  " (by decide),
   C10_parse_event_time_ids_amended.2.2.2 ['5', '6'] (by decide) (by decide),
   C10_parse_event_time_ids_amended.2.2.2 ['0'] (by decide) (by decide)⟩

/-- Counterexample for C10 as stated: `"0"` is a bare string consisting
only of digits, yet `parse_event_time_ids` returns `[]`, not the
one-element list `[0]` the claim requires. -/
theorem C10_parse_zero_counterexample :
    parse_event_time_ids (PyVal.strV "0") = [] ∧
    parse_event_time_ids (PyVal.strV "0") ≠ [PyVal.intV 0] := by
  refine ⟨rfl, ?_⟩
  intro hc
  have h0 : parse_event_time_ids (PyVal.strV "0") = [] := rfl
  rw [h0] at hc
  exact List.noConfusion hc

lemma explode_row_filter {α : Type} (a : α) (l : List PyVal) :
    List.filter (fun p : α × PyVal => neEmptyStr p.2 && pyNotna p.2)
      (match l with
       | [] => [(a, PyVal.nanV)]
       | xs => xs.map (fun v => (a, v))) =
    (l.filter (fun v => neEmptyStr v && pyNotna v)).map (fun v => (a, v)) := by
  cases l with
  | nil => rfl
  | cons x xs =>
    rw [List.filter_map]
    rfl

/-- C7: exploding the check-ins table by its multi-valued link-ids column.
General form: the result is, row by row, one output row per parsed link id
that survives the missing-value and empty-string drops; rows whose parsed
list is empty contribute nothing (their pandas `NaN` placeholder row is
dropped).  Concrete form, the spec's scenario: the three source rows with
cell values `["12","34"]`, `[]` and bare `"56"` yield exactly 3 rows — 2
from the first, 0 from the second, 1 from the third — each carrying a
single scalar link id (the bare digit string arriving as the integer 56,
via `ast.literal_eval`). -/
theorem C7_explode_checkins :
    (∀ (α : Type) (rows : List (α × PyVal)),
      explode_checkins rows = rows.flatMap (fun r =>
        ((parse_event_time_ids r.2).filter
          (fun v => neEmptyStr v && pyNotna v)).map (fun v => (r.1, v)))) ∧
    explode_checkins
      [((1 : Nat), PyVal.listV [PyVal.strV "12", PyVal.strV "34"]),
       (2, PyVal.listV []), (3, PyVal.strV "56")] =
      [(1, PyVal.strV "12"), (1, PyVal.strV "34"), (3, PyVal.intV 56)] := by
  constructor
  · intro α rows
    unfold explode_checkins
    rw [List.filter_filter, List.flatMap_map, List.filter_flatMap]
    congr 1
    funext r
    exact explode_row_filter r.1 (parse_event_time_ids r.2)
  · rfl

/-! Embedding of `generate_dtype_mapping` from
`backend/app/etl/data_processor.py`. -/

/-- The pandas dtype of a column, as the source inspects it (`'object'`,
`'int64'`/`'Int64'`, `'float64'`/`'Float64'`, `'bool'`, or anything
else, e.g. `datetime64`). -/
inductive ColDtype where
  | objectD : ColDtype
  | int64D : ColDtype
  | float64D : ColDtype
  | boolD : ColDtype
  | otherD : ColDtype
deriving DecidableEq

/-- The SQLAlchemy destination types the source chooses between.
`String(255)` is the only `String(n)` the code emits. -/
inductive SqlType where
  | sInteger : SqlType
  | sText : SqlType
  | sBoolean : SqlType
  | sDate : SqlType
  | sDateTimeTz : SqlType
  | sFloat : SqlType
  | sString255 : SqlType
deriving DecidableEq

/-- Model of Python `str.lower()` (ASCII). -/
def strLower (s : String) : String := String.mk (s.data.map Char.toLower)

/-- Substring occurrence test on character lists: does `pat` occur as a
contiguous run of `cs`? -/
def listContainsSub (cs pat : List Char) : Bool :=
  match cs with
  | [] => pat.isPrefixOf []
  | _ :: t => pat.isPrefixOf cs || listContainsSub t pat

/-- Model of the Python substring test `pat in s`. -/
def strContainsSub (s pat : String) : Bool := listContainsSub s.data pat.data

/-- A pandas column as `generate_dtype_mapping` inspects it: its dtype and
its cells, carried in rendered string form (`str(v)`); the code only ever
examines cell values of `object`-dtype columns, where the pipeline stores
strings. -/
structure PandasCol where
  dtype : ColDtype
  values : List (Option String)

/-- Model of `series.dropna().head(n)`: the first `n` non-null cells. -/
def colSample (vals : List (Option String)) (n : Nat) : List String :=
  (vals.filterMap id).take n

/-- The normalized distinct sample values
(`set(str(v).lower().strip() for v in sample.unique())`); only its
membership and cardinality are consumed, so a deduplicated list stands in
for the Python set. -/
def uniqueNormVals (sample : List String) : List String :=
  (sample.map (fun v => strLower (pyStrip v))).dedup

/-- The boolean-like literal set used by the boolean-column heuristic. -/
def boolLikeLits : List String :=
  ["true", "false", "1", "0", "yes", "no", "t", "f", "y", "n", ""]

/-- Model of `sample.astype(str).str.len().max()` (0 on an empty
sample, which the caller rules out). -/
def maxStrLen (sample : List String) : Nat :=
  (sample.map String.length).foldl max 0

/-- Embedding of the per-column body of `generate_dtype_mapping`: the
name- and content-driven `if`/`elif` chain choosing the destination
physical type, in the source's exact precedence order. -/
def generate_dtype_mapping_col (col : String) (c : PandasCol) : SqlType :=
  let col_lower := strLower col
  if strEnds col "_id" || strEnds col "_ids" then
    (if !(strEnds col "_ids") then SqlType.sInteger else SqlType.sText)
  else if [ "is_", "has_", "can_", "primary", "blocked", "verified",
      "opened"].any (fun x => strContainsSub col_lower x) then
    (if !(c.dtype = ColDtype.objectD : Bool) then SqlType.sBoolean
     else
      let sample := colSample c.values 20
      if !sample.isEmpty then
        let unique_vals := uniqueNormVals sample
        let bool_like := unique_vals.all (fun u => boolLikeLits.contains u)
        if bool_like && unique_vals.length ≤ 3 then SqlType.sBoolean
        else if maxStrLen sample > 255 then SqlType.sText
        else SqlType.sString255
      else SqlType.sBoolean)
  else if strContainsSub col_lower "date" || strEnds col "_at" then
    (if strContainsSub col_lower "date" && !(strContainsSub col_lower "time") then
      SqlType.sDate
     else SqlType.sDateTimeTz)
  else if ["count", "total", "min", "max", "grade", "year"].any
      (fun x => strContainsSub col_lower x) then
    (match c.dtype with
     | ColDtype.int64D => SqlType.sInteger
     | ColDtype.float64D => SqlType.sFloat
     | _ => SqlType.sString255)
  else if c.dtype = ColDtype.objectD then
    let sample := colSample c.values 10
    match sample with
    | first_val :: _ =>
      if strStarts first_val "[" || strStarts first_val "\x7b" then SqlType.sText
      else if strContainsSub col_lower "notes" ||
          strContainsSub col_lower "description" ||
          first_val.data.length > 255 then SqlType.sText
      else SqlType.sString255
    | [] => SqlType.sString255
  else
    match c.dtype with
    | ColDtype.boolD => SqlType.sBoolean
    | ColDtype.int64D => SqlType.sInteger
    | ColDtype.float64D => SqlType.sFloat
    | _ => SqlType.sString255

/-- Embedding of `generate_dtype_mapping` over a whole table: one
destination type per column, in column order. -/
def generate_dtype_mapping (cols : List (String × PandasCol)) :
    List (String × SqlType) :=
  cols.map (fun kv => (kv.1, generate_dtype_mapping_col kv.1 kv.2))

lemma ends_id_not_ends_ids {col : String} (h : strEnds col "_id" = true) :
    strEnds col "_ids" = false := by
  cases h2 : strEnds col "_ids"
  · rfl
  · exfalso
    unfold strEnds at h h2
    have hs1 : "_id".data <:+ col.data := List.isSuffixOf_iff_suffix.mp h
    have hs2 : "_ids".data <:+ col.data := List.isSuffixOf_iff_suffix.mp h2
    have hp1 : "_id".data.reverse <+: col.data.reverse :=
      List.reverse_prefix.mpr hs1
    have hp2 : "_ids".data.reverse <+: col.data.reverse :=
      List.reverse_prefix.mpr hs2
    rcases List.prefix_or_prefix_of_prefix hp1 hp2 with hc | hc
    · exact absurd hc (by decide)
    · exact absurd hc (by decide)

/-- C6: physical-type inference precedence in `generate_dtype_mapping`.
(1) A column whose name ends with `_id` infers `Integer` regardless of its
dtype and values — the name rule fires first (a name ending in `_id`
cannot also end in `_ids`).  (2) `is_verified` with sampled string values
`"true"`, `"false"` infers `Boolean` via the boolean-pattern rule.
(3) A `notes` object column with any non-null sample (in particular a
300-character value) infers `Text`: only the serialized-structure check
precedes the `notes` name check, and both choose `Text`. -/
theorem C6_generate_dtype_mapping_precedence :
    (∀ (col : String) (c : PandasCol), strEnds col "_id" = true →
      generate_dtype_mapping_col col c = SqlType.sInteger) ∧
    generate_dtype_mapping_col "is_verified"
      ⟨ColDtype.objectD, [Option.some "true", Option.some "false"]⟩ =
        SqlType.sBoolean ∧
    (∀ (v : String) (vs : List (Option String)),
      generate_dtype_mapping_col "notes"
        ⟨ColDtype.objectD, Option.some v :: vs⟩ = SqlType.sText) := by
  refine ⟨?_, rfl, ?_⟩
  · intro col c h
    simp only [generate_dtype_mapping_col]
    rw [h, ends_id_not_ends_ids h]
    rfl
  · intro v vs
    have hred : generate_dtype_mapping_col "notes"
        ⟨ColDtype.objectD, Option.some v :: vs⟩ =
        (if strStarts v "[" || strStarts v "\x7b" then SqlType.sText
         else if strContainsSub (strLower "notes") "notes" ||
             (strContainsSub (strLower "notes") "description" ||
              decide (v.data.length > 255)) then SqlType.sText
         else SqlType.sString255) := rfl
    rw [hred]
    cases h1 : (strStarts v "[" || strStarts v "\x7b")
    · rfl
    · rfl

/-- Witness for C6 at concrete inputs: the spec's `full_name_id` column
(whatever its values) and a 300-character `notes` sample. -/
theorem C6_generate_dtype_mapping_precedence_witness :
    generate_dtype_mapping_col "full_name_id"
      ⟨ColDtype.objectD, [Option.some "bob"]⟩ = SqlType.sInteger ∧
    generate_dtype_mapping_col "notes"
      ⟨ColDtype.objectD, [Option.some (String.mk (List.replicate 300 'a'))]⟩ =
        SqlType.sText :=
  ⟨C6_generate_dtype_mapping_precedence.1 "full_name_id"
      ⟨ColDtype.objectD, [Option.some "bob"]⟩ (by decide),
   C6_generate_dtype_mapping_precedence.2.2
      (String.mk (List.replicate 300 'a')) []⟩

/-! Embedding of `PCOClient.get_all_pages` from
`backend/app/etl/pco_client.py`. -/

/-- A JSON:API page as the pagination loop consumes it: the `data` array
(items abstracted to `α`) and the `links.next` value (`Option.none` when
the `next` key is absent). -/
structure PageResp (α : Type) where
  data : List α
  next : Option String

/-- The continuation test `'next' in links and links['next']` (the source
breaks when `'next' not in links or not links['next']`; an empty string is
falsy). -/
def hasNext {α : Type} (p : PageResp α) : Bool :=
  match p.next with
  | Option.none => false
  | Option.some s => s != ""

/-- The body of `get_all_pages`'s `while True` loop, with the upstream API
abstracted as `server : per_page → offset → page` and an explicit fuel
bound standing for the unbounded loop (the loop itself has no bound; all
statements about it assume the run terminates within the given fuel,
checked by `paginationTerminates`). -/
def getAllPagesAux {α : Type} (server : Nat → Nat → PageResp α) (pp : Nat) :
    Nat → Nat → List α
  | 0, _ => []
  | Nat.succ fuel, offset =>
    let page := server pp offset
    if page.data.isEmpty then []
    else if !(hasNext page) then page.data
    else page.data ++ getAllPagesAux server pp fuel (offset + page.data.length)

/-- Embedding of `PCOClient.get_all_pages`: cap `per_page` at the API
maximum of 100, start at offset 0, and run the pagination loop. -/
def get_all_pages {α : Type} (server : Nat → Nat → PageResp α)
    (per_page fuel : Nat) : List α :=
  getAllPagesAux server (min per_page 100) fuel 0

/-- The requests issued and pages received by the loop, in order: each
entry is `(per_page sent, offset sent, page received)`. -/
def pageTrace {α : Type} (server : Nat → Nat → PageResp α) (pp : Nat) :
    Nat → Nat → List (Nat × Nat × PageResp α)
  | 0, _ => []
  | Nat.succ fuel, offset =>
    let page := server pp offset
    if page.data.isEmpty then [(pp, offset, page)]
    else if !(hasNext page) then [(pp, offset, page)]
    else (pp, offset, page) :: pageTrace server pp fuel (offset + page.data.length)

/-- Decides whether the pagination loop reaches a stopping page within
`fuel` iterations. -/
def paginationTerminates {α : Type} (server : Nat → Nat → PageResp α)
    (pp : Nat) : Nat → Nat → Bool
  | 0, _ => false
  | Nat.succ fuel, offset =>
    let page := server pp offset
    if page.data.isEmpty then true
    else if !(hasNext page) then true
    else paginationTerminates server pp fuel (offset + page.data.length)

/-- The request/response sequence of one completed `get_all_pages` run:
every request uses the same `per_page` and an offset advanced by exactly
the size of the previous page; every page before the last is nonempty and
has a `links.next`; the last page is empty or lacks `links.next`. -/
inductive PageRun {α : Type} (server : Nat → Nat → PageResp α) (pp : Nat) :
    Nat → List (Nat × Nat × PageResp α) → Prop where
  | last : ∀ offset page, page = server pp offset →
      (page.data.isEmpty = true ∨ hasNext page = false) →
      PageRun server pp offset [(pp, offset, page)]
  | step : ∀ offset page rest, page = server pp offset →
      page.data.isEmpty = false → hasNext page = true →
      PageRun server pp (offset + page.data.length) rest →
      PageRun server pp offset ((pp, offset, page) :: rest)

lemma getAllPagesAux_eq_trace_flatten {α : Type}
    (server : Nat → Nat → PageResp α) (pp : Nat) :
    ∀ (fuel offset : Nat),
      getAllPagesAux server pp fuel offset =
        ((pageTrace server pp fuel offset).map (fun q => q.2.2.data)).flatten := by
  intro fuel
  induction fuel with
  | zero => intro offset; rfl
  | succ fuel ih =>
    intro offset
    simp only [getAllPagesAux, pageTrace]
    cases h1 : (server pp offset).data.isEmpty
    · cases h2 : hasNext (server pp offset)
      · simp [List.isEmpty_iff] at h1 ⊢
      · simp [ih (offset + (server pp offset).data.length)]
    · cases h2 : hasNext (server pp offset)
      · simp [List.isEmpty_iff.mp h1]
      · simp [List.isEmpty_iff.mp h1]

lemma pageTrace_run {α : Type} (server : Nat → Nat → PageResp α) (pp : Nat) :
    ∀ (fuel offset : Nat),
      paginationTerminates server pp fuel offset = true →
      PageRun server pp offset (pageTrace server pp fuel offset) := by
  intro fuel
  induction fuel with
  | zero => intro offset h; exact absurd h (by simp [paginationTerminates])
  | succ fuel ih =>
    intro offset h
    simp only [pageTrace]
    cases h1 : (server pp offset).data.isEmpty
    · cases h2 : hasNext (server pp offset)
      · simp only [h1, h2, Bool.not_false, if_true, Bool.false_eq_true, if_false]
        exact PageRun.last offset (server pp offset) rfl (Or.inr h2)
      · simp only [h1, h2, Bool.not_true, Bool.false_eq_true, if_false]
        apply PageRun.step offset (server pp offset) _ rfl h1 h2
        apply ih
        have h' := h
        simp only [paginationTerminates, h1, h2, Bool.not_true, Bool.false_eq_true,
          if_false] at h'
        exact h'
    · simp only [h1, if_true]
      exact PageRun.last offset (server pp offset) rfl (Or.inl h1)

/-- C3: for every terminating paginated fetch, `get_all_pages` requests
pages with `per_page` capped at 100, each offset advanced by the size of
the page just received, stops at the first page with zero data items or
with `links.next` absent/empty (`PageRun` packages these request/stop
facts), and returns the concatenation of the received pages' data arrays
in page order (a final empty page contributes its empty array, i.e.
nothing). -/
theorem C3_get_all_pages_pagination {α : Type}
    (server : Nat → Nat → PageResp α) (per_page fuel : Nat)
    (h : paginationTerminates server (min per_page 100) fuel 0 = true) :
    min per_page 100 ≤ 100 ∧
    PageRun server (min per_page 100) 0
      (pageTrace server (min per_page 100) fuel 0) ∧
    get_all_pages server per_page fuel =
      ((pageTrace server (min per_page 100) fuel 0).map
        (fun q => q.2.2.data)).flatten :=
  ⟨Nat.min_le_right per_page 100,
   pageTrace_run server (min per_page 100) fuel 0 h,
   getAllPagesAux_eq_trace_flatten server (min per_page 100) fuel 0⟩

/-- A concrete 3-page server for the witness: offset 0 returns items
`[1, 2]` with a next link, offset 2 returns `[3]` with a next link, and
offset 3 returns zero items, ending pagination. -/
def threePageServer : Nat → Nat → PageResp Nat := fun _ offset =>
  if offset = 0 then ⟨[1, 2], Option.some "u2"⟩
  else if offset = 2 then ⟨[3], Option.some "u3"⟩
  else ⟨[], Option.none⟩

/-- Witness for C3: the spec's three-page termination scenario.  The
theorem is applied at `threePageServer`, and the returned concatenation is
pages 1–2's items with page 3 contributing nothing. -/
theorem C3_get_all_pages_pagination_witness :
    (min 100 100 ≤ 100 ∧
     PageRun threePageServer (min 100 100) 0
       (pageTrace threePageServer (min 100 100) 5 0) ∧
     get_all_pages threePageServer 100 5 =
       ((pageTrace threePageServer (min 100 100) 5 0).map
         (fun q => q.2.2.data)).flatten) ∧
    get_all_pages threePageServer 100 5 = [1, 2, 3] :=
  ⟨C3_get_all_pages_pagination threePageServer 100 5 rfl, rfl⟩

/-! Embedding of `PCOClient.get` and `PCOClient._handle_rate_limit` from
`backend/app/etl/pco_client.py`. -/

/-- The outcome of one HTTP attempt as `PCOClient.get` observes it: a
successful JSON body, an HTTP 429 with optional `Retry-After` header, or a
`requests.RequestException` (connection error, or an HTTP error status
such as a 5xx raised by `raise_for_status`), carrying its message. -/
inductive Attempt (α : Type) where
  | success : α → Attempt α
  | rateLimited : Option Nat → Attempt α
  | reqError : String → Attempt α

/-- A terminal failure of `get`: the re-raise of the last
`RequestException`, or the generic `Failed to fetch ... after 5 retries`
exception when the attempt budget is consumed without a raise. -/
inductive GetErr where
  | raised : String → GetErr
  | exhausted : GetErr
deriving DecidableEq

/-- Embedding of `_handle_rate_limit`: the wait is the `Retry-After`
header value, defaulting to 60 seconds when the header is absent. -/
def handle_rate_limit (retryAfter : Option Nat) : Nat := retryAfter.getD 60

/-- One pass of `get`'s retry loop.  `attempts k` is the outcome of the
`k`-th HTTP request (the upstream network abstracted as a function),
`remaining = max_retries - retry_count` is the loop budget, and `sleeps`
accumulates every `time.sleep` duration in order.  Returns the overall
outcome, the sleeps, and the number of requests issued.  On a 429 the
loop sleeps for the `Retry-After`-derived duration and re-enters; on a
`RequestException` it re-raises once the budget is exhausted and otherwise
sleeps `2 ** retry_count` (exponential backoff); a loop exit without a
return raises the generic exhaustion failure. -/
def getAux {α : Type} (attempts : Nat → Attempt α) :
    Nat → Nat → List Nat → Except GetErr α × List Nat × Nat
  | k, 0, sleeps => (Except.error GetErr.exhausted, sleeps, k)
  | k, Nat.succ r, sleeps =>
    match attempts k with
    | Attempt.success v => (Except.ok v, sleeps, k + 1)
    | Attempt.rateLimited ra =>
      getAux attempts (k + 1) r (sleeps ++ [handle_rate_limit ra])
    | Attempt.reqError e =>
      if r = 0 then (Except.error (GetErr.raised e), sleeps, k + 1)
      else getAux attempts (k + 1) r (sleeps ++ [2 ^ (5 - r)])

/-- Embedding of `PCOClient.get`: run the retry loop with
`max_retries = 5`, starting before the first request with no sleeps. -/
def pcoGet {α : Type} (attempts : Nat → Attempt α) :
    Except GetErr α × List Nat × Nat :=
  getAux attempts 0 5 []

/-- A scripted attempt sequence: the `k`-th request's outcome is the
`k`-th list entry (a default beyond the end, never reached in the uses
below). -/
def scriptOf {α : Type} (l : List (Attempt α)) (dflt : Attempt α) :
    Nat → Attempt α := fun k => l.getD k dflt

lemma getAux_requests_le {α : Type} (attempts : Nat → Attempt α) :
    ∀ (r k : Nat) (sleeps : List Nat),
      (getAux attempts k r sleeps).2.2 ≤ k + r := by
  intro r
  induction r with
  | zero => intro k sleeps; simp [getAux]
  | succ r ih =>
    intro k sleeps
    rw [getAux]
    cases h : attempts k with
    | success v => dsimp only; omega
    | rateLimited ra =>
      dsimp only
      have := ih (k + 1) (sleeps ++ [handle_rate_limit ra])
      omega
    | reqError e =>
      dsimp only
      by_cases hr : r = 0
      · subst hr
        rw [if_pos rfl]
      · rw [if_neg hr]
        have := ih (k + 1) (sleeps ++ [2 ^ (5 - r)])
        omega

/-- C4: the retry behaviour of `PCOClient.get`.  (1) At most 5 requests
are ever issued.  (2) A 429 whose `Retry-After` header is `ra` causes
exactly one sleep, of `ra` seconds — in particular `Retry-After: 2` waits
2 seconds, not 60 — before the same request is retried and succeeds on
the second attempt.  (3) A 429 without the header waits the default 60
seconds.  (4) Five consecutive request errors (connection errors or 5xx)
sleep the exponential backoff schedule 2, 4, 8, 16 between attempts and
terminally re-raise the last error. -/
theorem C4_pco_get_retry :
    (∀ (α : Type) (attempts : Nat → Attempt α), (pcoGet attempts).2.2 ≤ 5) ∧
    (∀ (α : Type) (ra : Nat) (v : α),
      pcoGet (scriptOf [Attempt.rateLimited (Option.some ra), Attempt.success v]
        (Attempt.success v)) = (Except.ok v, [ra], 2)) ∧
    (∀ (α : Type) (v : α),
      pcoGet (scriptOf [Attempt.rateLimited Option.none, Attempt.success v]
        (Attempt.success v)) = (Except.ok v, [60], 2)) ∧
    (∀ (e0 e1 e2 e3 e4 : String),
      pcoGet (scriptOf ([Attempt.reqError e0, Attempt.reqError e1,
          Attempt.reqError e2, Attempt.reqError e3, Attempt.reqError e4] :
            List (Attempt Unit)) (Attempt.reqError e4)) =
        (Except.error (GetErr.raised e4), [2, 4, 8, 16], 5)) := by
  refine ⟨?_, ?_, ?_, ?_⟩
  · intro α attempts
    exact getAux_requests_le attempts 5 0 []
  · intro α ra v
    rfl
  · intro α v
    rfl
  · intro e0 e1 e2 e3 e4
    rfl

/-! Embedding of `DataSyncService.run_sync`, `_fetch_endpoint` and the
`DataRefreshJob` transitions from
`backend/app/services/data_sync_service.py` and
`backend/app/models/refresh_job.py`. -/

/-- Job status values of `DataRefreshJob.status`. -/
inductive JobStatus where
  | pending : JobStatus
  | running : JobStatus
  | completed : JobStatus
  | failed : JobStatus
deriving DecidableEq

/-- The `DataRefreshJob` fields `run_sync` mutates; the two timestamps are
carried as set/unset flags (their wall-clock values are outside the
model). -/
structure JobState where
  status : JobStatus
  startedSet : Bool
  completedSet : Bool
  totalEndpoints : Option Nat
  completedEndpoints : Nat
  currentEndpoint : Option String
  recordsFetched : Nat
  errorMessage : Option String

/-- `DataRefreshJob.mark_started`. -/
def mark_started (j : JobState) : JobState :=
  { j with status := JobStatus.running, startedSet := true }

/-- `DataRefreshJob.mark_completed`. -/
def mark_completed (j : JobState) (records : Nat) : JobState :=
  { j with
      status := JobStatus.completed
      completedSet := true
      recordsFetched := records }

/-- `DataRefreshJob.mark_failed`. -/
def mark_failed (j : JobState) (msg : String) : JobState :=
  { j with
      status := JobStatus.failed
      completedSet := true
      errorMessage := Option.some msg }

/-- `DataRefreshJob.update_progress`. -/
def update_progress (j : JobState) (endpoint : String) (completed : Nat) :
    JobState :=
  { j with
      currentEndpoint := Option.some endpoint
      completedEndpoints := completed }

/-- `DataSyncService.DASHBOARD_ENDPOINTS`, as `(name, endpoint)` pairs in
iteration order. -/
def DASHBOARD_ENDPOINTS : List (String × String) :=
  [("people", "/people/v2/people"),
   ("check_ins", "/check-ins/v2/check_ins"),
   ("events", "/check-ins/v2/events"),
   ("event_times", "/check-ins/v2/event_times")]

/-- The environment a sync run interacts with, each fallible collaborator
as an `Except` carrying the raised exception's message: `_init_client`
(missing credentials or a decryption failure), `test_connection`, the body
of `_fetch_endpoint`'s `try` block per endpoint name (paginate, flatten,
timezone-normalize, derive columns, SQL-prepare — an `Except.ok n` is the
record count it would store), and `_load_to_database`. -/
structure SyncEnv where
  initClient : Except String Unit
  connTest : Except String Unit
  fetchResults : String → Except String Nat
  loadResult : Except String Unit

/-- Embedding of `DataSyncService._fetch_endpoint`: the whole body is
wrapped in `try/except`, so an exception while fetching or flattening one
endpoint is logged and yields 0 records instead of propagating. -/
def fetch_endpoint (env : SyncEnv) (name : String) : Nat :=
  match env.fetchResults name with
  | Except.ok n => n
  | Except.error _ => 0

/-- The `for i, (name, config) in enumerate(...)` loop of `run_sync`:
update progress, fetch, and accumulate the record total; the trace records
each endpoint processed. -/
def fetchLoop (env : SyncEnv) :
    List (String × String) → Nat → JobState → Nat → List String →
      JobState × Nat × List String
  | [], _, j, total, tr => (j, total, tr)
  | (name, ep) :: rest, i, j, total, tr =>
    let j2 := update_progress j ep i
    let n := fetch_endpoint env name
    fetchLoop env rest (i + 1) j2 (total + n) (tr ++ ["fetch:" ++ name])

/-- Embedding of `DataSyncService.run_sync`: mark the job started, record
the endpoint total, initialize the client, test the connection (a failure
raises `PCO connection failed: {error}`), fetch every endpoint, explode
and enrich (total table-to-table computations in this model; their
missing-column paths return early in the source), then load.  The single
`except` around the body turns any raise into `mark_failed(str(e))` and a
`False` return, abandoning the remaining steps.  Returns the final job
state, the boolean result, and the trace of pipeline stages executed. -/
def run_sync (env : SyncEnv) (job0 : JobState) : JobState × Bool × List String :=
  let j1 := { mark_started job0 with
    totalEndpoints := Option.some DASHBOARD_ENDPOINTS.length }
  match env.initClient with
  | Except.error e => (mark_failed j1 e, false, [])
  | Except.ok _ =>
    match env.connTest with
    | Except.error err =>
      (mark_failed j1 ("PCO connection failed: " ++ err), false, [])
    | Except.ok _ =>
      let res := fetchLoop env DASHBOARD_ENDPOINTS 0 j1 0 []
      let j2 := res.1
      let total := res.2.1
      let tr := res.2.2 ++ ["explode", "enrich_event_times", "enrich_checkins"]
      match env.loadResult with
      | Except.error e => (mark_failed j2 e, false, tr ++ ["load"])
      | Except.ok _ =>
        (mark_completed j2 total, true, tr ++ ["load", "complete"])

lemma fetchLoop_char (env : SyncEnv) :
    ∀ (l : List (String × String)) (i : Nat) (j : JobState) (total : Nat)
      (tr : List String),
      (fetchLoop env l i j total tr).1.status = j.status ∧
      (fetchLoop env l i j total tr).2.1 =
        total + (l.map (fun p => fetch_endpoint env p.1)).sum ∧
      (fetchLoop env l i j total tr).2.2 =
        tr ++ l.map (fun p => "fetch:" ++ p.1) := by
  intro l
  induction l with
  | nil => intro i j total tr; simp [fetchLoop]
  | cons hd rest ih =>
    intro i j total tr
    obtain ⟨name, ep⟩ := hd
    simp only [fetchLoop]
    obtain ⟨h1, h2, h3⟩ :=
      ih (i + 1) (update_progress j ep i) (total + fetch_endpoint env name)
        (tr ++ ["fetch:" ++ name])
    refine ⟨?_, ?_, ?_⟩
    · rw [h1]; rfl
    · rw [h2]; simp [List.map_cons]; omega
    · rw [h3]; simp

/-- C2: failure semantics of `run_sync`.  The run ends `failed` exactly
when client construction (credential decryption) fails, the connection
test fails, or the load stage raises — and in each case the job captures
that exception's message (`PCO connection failed: {error}` for the
connection test) and the remaining stages are not executed.  A
per-endpoint fetch/flatten exception is absorbed by `_fetch_endpoint`
(contributing 0 records), every endpoint is still processed, and the run
completes with the total of the per-endpoint record counts. -/
theorem C2_run_sync_failure_semantics (env : SyncEnv) (job0 : JobState) :
    ((run_sync env job0).1.status = JobStatus.failed ↔
      ((∃ e, env.initClient = Except.error e) ∨
       (∃ e, env.connTest = Except.error e) ∨
       (∃ e, env.loadResult = Except.error e))) ∧
    (∀ e, env.initClient = Except.error e →
      (run_sync env job0).1.errorMessage = Option.some e ∧
      (run_sync env job0).2.2 = []) ∧
    (∀ e, env.initClient = Except.ok () → env.connTest = Except.error e →
      (run_sync env job0).1.errorMessage =
        Option.some ("PCO connection failed: " ++ e) ∧
      (run_sync env job0).2.2 = []) ∧
    (∀ e, env.initClient = Except.ok () → env.connTest = Except.ok () →
      env.loadResult = Except.error e →
      (run_sync env job0).1.errorMessage = Option.some e ∧
      ¬("complete" ∈ (run_sync env job0).2.2)) ∧
    (env.initClient = Except.ok () → env.connTest = Except.ok () →
      env.loadResult = Except.ok () →
      (run_sync env job0).1.status = JobStatus.completed ∧
      (run_sync env job0).1.recordsFetched =
        (DASHBOARD_ENDPOINTS.map (fun p => fetch_endpoint env p.1)).sum ∧
      (run_sync env job0).2.2 =
        DASHBOARD_ENDPOINTS.map (fun p => "fetch:" ++ p.1) ++
          ["explode", "enrich_event_times", "enrich_checkins",
           "load", "complete"]) ∧
    (∀ name e, env.fetchResults name = Except.error e →
      fetch_endpoint env name = 0) := by
  obtain ⟨hst, hrec, htr⟩ := fetchLoop_char env DASHBOARD_ENDPOINTS 0
    ({ mark_started job0 with
        totalEndpoints := Option.some DASHBOARD_ENDPOINTS.length }) 0 []
  rcases hic : env.initClient with e0 | u0
  · refine ⟨?_, ?_, ?_, ?_, ?_, ?_⟩
    · simp [run_sync, hic, mark_failed]
    · intro e he
      injection he with h
      subst h
      simp [run_sync, hic, mark_failed]
    · intro e hok
      exact Except.noConfusion hok
    · intro e hok
      exact Except.noConfusion hok
    · intro hok
      exact Except.noConfusion hok
    · intro name e hf
      simp [fetch_endpoint, hf]
  · rcases hconn : env.connTest with e1 | u1
    · refine ⟨?_, ?_, ?_, ?_, ?_, ?_⟩
      · simp [run_sync, hic, hconn, mark_failed]
      · intro e he
        exact Except.noConfusion he
      · intro e _ he
        injection he with h
        subst h
        simp [run_sync, hic, hconn, mark_failed]
      · intro e _ hok
        exact Except.noConfusion hok
      · intro _ hok
        exact Except.noConfusion hok
      · intro name e hf
        simp [fetch_endpoint, hf]
    · rcases hload : env.loadResult with e2 | u2
      · refine ⟨?_, ?_, ?_, ?_, ?_, ?_⟩
        · simp [run_sync, hic, hconn, hload, mark_failed]
        · intro e he
          exact Except.noConfusion he
        · intro e _ he
          exact Except.noConfusion he
        · intro e _ _ he
          injection he with h
          subst h
          constructor
          · simp [run_sync, hic, hconn, hload, mark_failed]
          · simp only [run_sync, hic, hconn, hload]
            rw [htr]
            simp [DASHBOARD_ENDPOINTS]
        · intro _ _ hok
          exact Except.noConfusion hok
        · intro name e hf
          simp [fetch_endpoint, hf]
      · refine ⟨?_, ?_, ?_, ?_, ?_, ?_⟩
        · have hstatus : (run_sync env job0).1.status = JobStatus.completed := by
            simp only [run_sync, hic, hconn, hload]
            rfl
          rw [hstatus]
          constructor
          · intro h
            exact JobStatus.noConfusion h
          · rintro (⟨e, he⟩ | ⟨e, he⟩ | ⟨e, he⟩) <;> exact Except.noConfusion he
        · intro e he
          exact Except.noConfusion he
        · intro e _ he
          exact Except.noConfusion he
        · intro e _ _ he
          exact Except.noConfusion he
        · intro _ _ _
          refine ⟨?_, ?_, ?_⟩
          · simp only [run_sync, hic, hconn, hload]
            rfl
          · simp only [run_sync, hic, hconn, hload]
            rw [show ∀ j t, (mark_completed j t).recordsFetched = t
              from fun _ _ => rfl]
            rw [hrec]
            omega
          · simp only [run_sync, hic, hconn, hload]
            rw [htr]
            simp [DASHBOARD_ENDPOINTS]
        · intro name e hf
          simp [fetch_endpoint, hf]

/-- A fresh pending job for the C2 witness. -/
def pendingJob : JobState :=
  ⟨JobStatus.pending, false, false, Option.none, 0, Option.none, 0,
   Option.none⟩

/-- An environment whose connection test fails. -/
def envConnFail : SyncEnv :=
  ⟨Except.ok (), Except.error "boom", fun _ => Except.ok 0, Except.ok ()⟩

/-- An environment where fetching the `people` endpoint raises but
everything else succeeds with 7 records per endpoint. -/
def envFetchErr : SyncEnv :=
  ⟨Except.ok (), Except.ok (),
   fun name => if name = "people" then Except.error "parse blew up"
     else Except.ok 7,
   Except.ok ()⟩

/-- Witness for C2: a failed connection test marks the job failed with the
`PCO connection failed:` message and no stage runs; a per-endpoint fetch
exception leaves the run completed, with that endpoint contributing zero
records and every stage still executed. -/
theorem C2_run_sync_failure_semantics_witness :
    ((run_sync envConnFail pendingJob).1.errorMessage =
        Option.some ("PCO connection failed: " ++ "boom") ∧
      (run_sync envConnFail pendingJob).2.2 = []) ∧
    ((run_sync envFetchErr pendingJob).1.status = JobStatus.completed ∧
      (run_sync envFetchErr pendingJob).1.recordsFetched =
        (DASHBOARD_ENDPOINTS.map (fun p => fetch_endpoint envFetchErr p.1)).sum ∧
      (run_sync envFetchErr pendingJob).2.2 =
        DASHBOARD_ENDPOINTS.map (fun p => "fetch:" ++ p.1) ++
          ["explode", "enrich_event_times", "enrich_checkins",
           "load", "complete"]) ∧
    fetch_endpoint envFetchErr "people" = 0 :=
  ⟨(C2_run_sync_failure_semantics envConnFail pendingJob).2.2.1 "boom" rfl rfl,
   (C2_run_sync_failure_semantics envFetchErr pendingJob).2.2.2.2.1 rfl rfl rfl,
   (C2_run_sync_failure_semantics envFetchErr pendingJob).2.2.2.2.2 "people"
     "parse blew up" (by rfl)⟩

/-! Embedding of `convert_timestamps_to_timezone` from
`backend/app/etl/data_processor.py`. -/

/-- A pandas column as `convert_timestamps_to_timezone` inspects it: a
naive `datetime64` column, a tz-aware `datetime64` column (pandas stores
UTC epoch instants plus a timezone attribute, so a cell is an optional
instant and the column carries its tz), an `object` column of optional
strings, or a column of any other dtype (numeric, bool), which the loop
never touches. -/
inductive TzCol where
  | naiveDt : List (Option Int) → TzCol
  | awareDt : String → List (Option Int) → TzCol
  | objCol : List (Option String) → TzCol
  | otherCol : TzCol

/-- Count occurrences of a character (model of `str.count` for a
single-character argument). -/
def countChar (s : String) (c : Char) : Nat :=
  (s.data.filter (fun x => x = c)).length

/-- The `looks_like_timestamp` sample-string test of the source:
`'T' in s or (':' in s and len(s) > 15) or s.endswith('Z') or
('-' in s and len(s.split('-')) >= 3 and ':' in s)`. -/
def looksLikeTs (s : String) : Bool :=
  strContainsSub s "T" ||
  (strContainsSub s ":" && s.data.length > 15) ||
  strEnds s "Z" ||
  (strContainsSub s "-" && countChar s '-' + 1 ≥ 3 && strContainsSub s ":")

/-- The `has_time_info` per-value test of the source. -/
def hasTimeInfoStr (s : String) : Bool :=
  strContainsSub s "T" || strContainsSub s ":" || strEnds s "Z" ||
  (s.data.length > 15 || (strContainsSub s "-" && countChar s ':' ≥ 2))

/-- Embedding of the per-column body of `convert_timestamps_to_timezone`.
`parseTs` abstracts `pd.to_datetime(·, errors='coerce', utc=True)` on one
string (`Option.none` is `NaT`); `target` is the tenant's timezone.  An
all-missing column is skipped; an aware datetime column is `tz_convert`ed
(instants unchanged, tz set to the target); a naive one is localized to
UTC then converted; an object column is converted only when the sampled
values look like timestamps, at least 70 percent of the sample parses,
the sample shows time-of-day information, and the fully parsed column is
not entirely `NaT`. -/
def convert_timestamps_col (parseTs : String → Option Int) (target : String) :
    TzCol → TzCol
  | TzCol.naiveDt vals =>
    if vals.all (fun v => v.isNone) then TzCol.naiveDt vals
    else TzCol.awareDt target vals
  | TzCol.awareDt tz vals =>
    if vals.all (fun v => v.isNone) then TzCol.awareDt tz vals
    else TzCol.awareDt target vals
  | TzCol.objCol vals =>
    if vals.all (fun v => v.isNone) then TzCol.objCol vals
    else
      let sample := (vals.filterMap id).take 50
      if sample.isEmpty then TzCol.objCol vals
      else
        let looks := (sample.take 10).any looksLikeTs
        if !looks then TzCol.objCol vals
        else
          let parsedSample := sample.map parseTs
          if (parsedSample.filter (fun p => p.isSome)).length * 10 ≥
              sample.length * 7 then
            if (sample.take 10).any hasTimeInfoStr then
              let parsed_full := vals.map (fun ov => ov.bind parseTs)
              if 0 < (parsed_full.filter (fun p => p.isSome)).length then
                TzCol.awareDt target parsed_full
              else TzCol.objCol vals
            else TzCol.objCol vals
          else TzCol.objCol vals
  | TzCol.otherCol => TzCol.otherCol

/-- Embedding of `convert_timestamps_to_timezone` over a whole table:
each column converted independently. -/
def convert_timestamps_to_timezone (parseTs : String → Option Int)
    (target : String) (cols : List (String × TzCol)) :
    List (String × TzCol) :=
  cols.map (fun kv => (kv.1, convert_timestamps_col parseTs target kv.2))

lemma not_all_none_of_filter_pos {l : List (Option Int)}
    (h : 0 < (l.filter (fun p => p.isSome)).length) :
    l.all (fun v => v.isNone) = false := by
  cases hall : l.all (fun v => v.isNone)
  · rfl
  · exfalso
    have hne : (l.filter (fun p => p.isSome)) ≠ [] := by
      intro hc
      rw [hc] at h
      exact Nat.lt_irrefl 0 h
    obtain ⟨x, hx⟩ := List.exists_mem_of_ne_nil _ hne
    have hmem := List.mem_filter.mp hx
    have hnone := (List.all_eq_true.mp hall) x hmem.1
    cases x with
    | none => exact Bool.noConfusion hmem.2
    | some v => exact Bool.noConfusion hnone

lemma convert_col_cases (parseTs : String → Option Int) (target : String)
    (c : TzCol) :
    convert_timestamps_col parseTs target c = c ∨
    (∃ vals, convert_timestamps_col parseTs target c =
        TzCol.awareDt target vals ∧
      vals.all (fun v => v.isNone) = false) := by
  cases c with
  | naiveDt vals =>
    simp only [convert_timestamps_col]
    split
    · left; rfl
    · rename_i h
      right
      exact ⟨vals, rfl, by simpa using h⟩
  | awareDt tz vals =>
    simp only [convert_timestamps_col]
    split
    · left; rfl
    · rename_i h
      right
      exact ⟨vals, rfl, by simpa using h⟩
  | objCol vals =>
    simp only [convert_timestamps_col]
    split
    · left; rfl
    · split
      · left; rfl
      · split
        · left; rfl
        · split
          · split
            · split
              · rename_i hpos
                right
                exact ⟨_, rfl, not_all_none_of_filter_pos hpos⟩
              · left; rfl
            · left; rfl
          · left; rfl
  | otherCol => left; rfl

lemma convert_col_idem (parseTs : String → Option Int) (target : String)
    (c : TzCol) :
    convert_timestamps_col parseTs target
      (convert_timestamps_col parseTs target c) =
    convert_timestamps_col parseTs target c := by
  rcases convert_col_cases parseTs target c with h | ⟨vals, h, hall⟩
  · rw [h, h]
  · rw [h]
    simp only [convert_timestamps_col, hall]
    rfl

/-- C8: timezone normalization is idempotent — converting a table already
converted to the target timezone leaves every column's values (and tz)
identical.  A converted column is tz-aware with at least one non-missing
instant, so a second pass `tz_convert`s it to the same target, changing
nothing; columns the first pass skipped are skipped again by the same
deterministic tests. -/
theorem C8_convert_timestamps_idempotent (parseTs : String → Option Int)
    (target : String) (cols : List (String × TzCol)) :
    convert_timestamps_to_timezone parseTs target
      (convert_timestamps_to_timezone parseTs target cols) =
    convert_timestamps_to_timezone parseTs target cols := by
  unfold convert_timestamps_to_timezone
  rw [List.map_map]
  congr 1
  funext kv
  show (kv.1, convert_timestamps_col parseTs target
      (convert_timestamps_col parseTs target kv.2)) =
    (kv.1, convert_timestamps_col parseTs target kv.2)
  rw [convert_col_idem]

/-! Embedding of `process_jsonapi_response` and
`convert_complex_type_to_json` from `backend/app/etl/data_processor.py`. -/

/-- Escape one character the way `json.dumps` does on the modelled
fragment (printable ASCII plus the common control escapes). -/
def jsonEscapeChar (c : Char) : List Char :=
  if c = '"' then ['\\', '"']
  else if c = '\\' then ['\\', '\\']
  else if c = '\n' then ['\\', 'n']
  else if c = '\t' then ['\\', 't']
  else if c = '\r' then ['\\', 'r']
  else [c]

/-- Model of `json.dumps` string escaping on the fragment. -/
def jsonEscape (s : String) : String := String.mk (s.data.flatMap jsonEscapeChar)

mutual

/-- Model of `json.dumps` with its default separators (`", "` and
`": "`). -/
def jsonDumps : PyVal → String
  | PyVal.noneV => "null"
  | PyVal.nanV => "NaN"
  | PyVal.boolV b => if b then "true" else "false"
  | PyVal.intV n => toString n
  | PyVal.strV s => "\"" ++ jsonEscape s ++ "\""
  | PyVal.listV xs => "[" ++ jsonDumpsList xs ++ "]"
  | PyVal.dictV fs => "\x7b" ++ jsonDumpsFields fs ++ "\x7d"

/-- Comma-joined array elements. -/
def jsonDumpsList : List PyVal → String
  | [] => ""
  | [x] => jsonDumps x
  | x :: xs => jsonDumps x ++ ", " ++ jsonDumpsList xs

/-- Comma-joined object entries. -/
def jsonDumpsFields : List (String × PyVal) → String
  | [] => ""
  | [kv] => "\"" ++ jsonEscape kv.1 ++ "\": " ++ jsonDumps kv.2
  | kv :: rest =>
    "\"" ++ jsonEscape kv.1 ++ "\": " ++ jsonDumps kv.2 ++ ", " ++
      jsonDumpsFields rest

end

/-- Embedding of `convert_complex_type_to_json`: lists and dicts become
their JSON string encoding; every other value passes through (the
`json.dumps` failure branch is unreachable on the embedded fragment,
whose values are all serializable). -/
def convert_complex_type_to_json : PyVal → PyVal
  | PyVal.listV xs => PyVal.strV (jsonDumps (PyVal.listV xs))
  | PyVal.dictV fs => PyVal.strV (jsonDumps (PyVal.dictV fs))
  | v => v

mutual

/-- Model of Python `repr` on the fragment (single-quoted strings,
no escaping — faithful for the quote-free scalar ids the pipeline
renders). -/
def pyRepr : PyVal → String
  | PyVal.noneV => "None"
  | PyVal.nanV => "nan"
  | PyVal.boolV b => if b then "True" else "False"
  | PyVal.intV n => toString n
  | PyVal.strV s => String.mk (squote :: s.data ++ [squote])
  | PyVal.listV xs => "[" ++ pyReprList xs ++ "]"
  | PyVal.dictV fs => "\x7b" ++ pyReprFields fs ++ "\x7d"

/-- Comma-joined list elements for `repr`. -/
def pyReprList : List PyVal → String
  | [] => ""
  | [x] => pyRepr x
  | x :: xs => pyRepr x ++ ", " ++ pyReprList xs

/-- Comma-joined dict entries for `repr`. -/
def pyReprFields : List (String × PyVal) → String
  | [] => ""
  | [kv] => String.mk (squote :: kv.1.data ++ [squote]) ++ ": " ++ pyRepr kv.2
  | kv :: rest =>
    String.mk (squote :: kv.1.data ++ [squote]) ++ ": " ++ pyRepr kv.2 ++
      ", " ++ pyReprFields rest

end

/-- Model of Python `str()` as f-strings use it: strings pass through,
scalars render their literal form, containers render via `repr`. -/
def pyStr : PyVal → String
  | PyVal.noneV => "None"
  | PyVal.nanV => "nan"
  | PyVal.boolV b => if b then "True" else "False"
  | PyVal.intV n => toString n
  | PyVal.strV s => s
  | v => pyRepr v

/-- A flattened row: an insertion-ordered mapping from column name to
cell value (the Python dict `data_dict`). -/
abbrev Row := List (String × PyVal)

/-- Python dict assignment `d[k] = v`: replace in place when the key
exists (keeping its position), else append.  (Python dicts never hold a
duplicate key, so replacing the first occurrence is the dict
semantics.) -/
def rowSet : Row → String → PyVal → Row
  | [], k, v => [(k, v)]
  | kv :: rest, k, v =>
    if kv.1 == k then (k, v) :: rest else kv :: rowSet rest k v

/-- Python dict lookup. -/
def rowGet : Row → String → Option PyVal
  | [], _ => Option.none
  | kv :: rest, k => if kv.1 == k then Option.some kv.2 else rowGet rest k

/-- Python `d.get(k, default)`, raising `AttributeError` on a
non-dict receiver. -/
def pyGet (v : PyVal) (k : String) (dflt : PyVal) : Except String PyVal :=
  match v with
  | PyVal.dictV fs => Except.ok ((rowGet fs k).getD dflt)
  | _ => Except.error "AttributeError: get"

/-- Python `d.items()`, raising on a non-dict receiver. -/
def pyItems : PyVal → Except String (List (String × PyVal))
  | PyVal.dictV fs => Except.ok fs
  | _ => Except.error "AttributeError: items"

/-- Python iteration `for x in v`: lists yield elements, dicts their
keys, strings their characters; other values raise `TypeError`. -/
def pyIter : PyVal → Except String (List PyVal)
  | PyVal.listV xs => Except.ok xs
  | PyVal.dictV fs => Except.ok (fs.map (fun kv => PyVal.strV kv.1))
  | PyVal.strV s => Except.ok (s.data.map (fun c => PyVal.strV (String.mk [c])))
  | _ => Except.error "TypeError: iteration"

/-- Python `k in v` for a string `k`: dict key membership, list element
membership, substring test; other receivers raise `TypeError`. -/
def pyContainsKey (v : PyVal) (k : String) : Except String Bool :=
  match v with
  | PyVal.dictV fs => Except.ok (fs.any (fun kv => kv.1 == k))
  | PyVal.listV xs => Except.ok (xs.any (fun x =>
      match x with
      | PyVal.strV t => t == k
      | _ => false))
  | PyVal.strV s => Except.ok (strContainsSub s k)
  | _ => Except.error "TypeError: in"

/-- Python subscription `v[k]` for a string key: dict lookup raising
`KeyError` when absent; other receivers raise `TypeError`. -/
def pySubscript (v : PyVal) (k : String) : Except String PyVal :=
  match v with
  | PyVal.dictV fs =>
    match rowGet fs k with
    | Option.some x => Except.ok x
    | Option.none => Except.error "KeyError"
  | _ => Except.error "TypeError: subscript"

/-- One step of the `included` lookup construction: read the item's id
and type (raising on a non-dict item), and insert it under the f-string
key `{id}_{type}` only when both are truthy. -/
def includedLookupStep (lk : Row) (item : PyVal) : Except String Row :=
  match pyGet item "id" PyVal.noneV, pyGet item "type" (PyVal.strV "") with
  | Except.ok item_id, Except.ok item_type =>
    (match pyTruthy item_id && pyTruthy item_type with
     | true =>
       Except.ok (rowSet lk (pyStr item_id ++ "_" ++ pyStr item_type) item)
     | false => Except.ok lk)
  | Except.error e, _ => Except.error e
  | Except.ok _, Except.error e => Except.error e

/-- The `included` lookup construction of `process_jsonapi_response`:
keyed by the f-string `{id}_{type}`, inserting only items whose id and
type are both truthy, last insertion winning on a key collision. -/
def includedLookup (items : List PyVal) : Except String Row :=
  items.foldlM includedLookupStep []

/-- Inline an included resource's attributes onto the row under
`{rel_type}_{attr}` column names, complex values JSON-encoded. -/
def inlineIncluded (rel_type : PyVal) (included_data : PyVal) (dd : Row) :
    Except String Row := do
  let included_attrs ← pyGet included_data "attributes" (PyVal.dictV [])
  let attrs ← pyItems included_attrs
  pure (attrs.foldl (fun acc kv =>
    rowSet acc (pyStr rel_type ++ "_" ++ kv.1)
      (convert_complex_type_to_json kv.2)) dd)

/-- The `for rel_item in rel_items` loop: dict references with a truthy
id contribute the id (in order) and, when the `{id}_{type}` key resolves
in the included lookup, inline that resource's attributes; any other
reference is ignored. -/
def processRelItems (lookup : Row) :
    List PyVal → List PyVal × Row → Except String (List PyVal × Row)
  | [], acc => Except.ok acc
  | rel_item :: rest, acc =>
    match rel_item with
    | PyVal.dictV fs => do
      let rel_id ← pyGet (PyVal.dictV fs) "id" PyVal.noneV
      let rel_type ← pyGet (PyVal.dictV fs) "type" (PyVal.strV "")
      if pyTruthy rel_id then
        let key := pyStr rel_id ++ "_" ++ pyStr rel_type
        match rowGet lookup key with
        | Option.some inc => do
          let dd2 ← inlineIncluded rel_type inc acc.2
          processRelItems lookup rest (acc.1 ++ [rel_id], dd2)
        | Option.none =>
          processRelItems lookup rest (acc.1 ++ [rel_id], acc.2)
      else processRelItems lookup rest acc
    | _ => processRelItems lookup rest acc

/-- Process one relationship entry: skip falsy values and values without
a `data` key; wrap a non-list `data` (a to-one reference) into a list,
dropping a falsy one; collect the reference ids and inline included
attributes; then store `{rel}_id` when exactly one id was collected and
always store `{rel}_ids` as the JSON-encoded id list (when nonempty). -/
def processRel (lookup : Row) (dd : Row) (rel_name : String)
    (rel_data : PyVal) : Except String Row := do
  if !pyTruthy rel_data then Except.ok dd
  else do
    let hasData ← pyContainsKey rel_data "data"
    if !hasData then Except.ok dd
    else do
      let rel_items0 ← pySubscript rel_data "data"
      let rel_items : List PyVal :=
        match rel_items0 with
        | PyVal.listV xs => xs
        | v => if pyTruthy v then [v] else []
      let res ← processRelItems lookup rel_items ([], dd)
      if !res.1.isEmpty then
        let dd2 :=
          match res.1 with
          | [x] => rowSet res.2 (rel_name ++ "_id") x
          | _ => res.2
        Except.ok (rowSet dd2 (rel_name ++ "_ids")
          (convert_complex_type_to_json (PyVal.listV res.1)))
      else Except.ok res.2

/-- Flatten one `data` item: start the row with the `{type}_id` primary
key, add the item's own attributes (complex values JSON-encoded), then
process its relationships in order. -/
def processItem (lookup : Row) (item : PyVal) : Except String Row := do
  let item_id ← pyGet item "id" PyVal.noneV
  let item_type ← pyGet item "type" (PyVal.strV "")
  let attributes ← pyGet item "attributes" (PyVal.dictV [])
  let relationships ← pyGet item "relationships" (PyVal.dictV [])
  let attrsL ← pyItems attributes
  let dd1 := attrsL.foldl (fun acc kv =>
    rowSet acc kv.1 (convert_complex_type_to_json kv.2))
    [(pyStr item_type ++ "_id", item_id)]
  let relsL ← pyItems relationships
  relsL.foldlM (fun acc kv => processRel lookup acc kv.1 kv.2) dd1

/-- The body of `process_jsonapi_response`'s `try` block. -/
def processBody (response : PyVal) : Except String (List Row) := do
  let data_items ← pyGet response "data" (PyVal.listV [])
  let included_items ← pyGet response "included" (PyVal.listV [])
  let inclL ← pyIter included_items
  let lookup ← includedLookup inclL
  let dataL ← pyIter data_items
  dataL.mapM (processItem lookup)

/-- Embedding of `process_jsonapi_response`: the whole body runs under
`try/except`, and any exception yields the empty list for the page. -/
def process_jsonapi_response (response : PyVal) (endpoint : String) :
    List Row :=
  match processBody response with
  | Except.ok rows => rows
  | Except.error _ => []

lemma rowGet_rowSet_self (r : Row) (k : String) (v : PyVal) :
    rowGet (rowSet r k v) k = Option.some v := by
  induction r with
  | nil => simp [rowSet, rowGet]
  | cons kv rest ih =>
    cases h : (kv.1 == k)
    · simp [rowSet, rowGet, h, ih]
    · simp [rowSet, rowGet, h]

lemma rowGet_rowSet_ne (r : Row) {k k2 : String} (v : PyVal)
    (h : (k == k2) = false) :
    rowGet (rowSet r k v) k2 = rowGet r k2 := by
  induction r with
  | nil => simp [rowSet, rowGet, h]
  | cons kv rest ih =>
    cases hk : (kv.1 == k)
    · simp [rowSet, rowGet, hk, ih]
    · have : kv.1 = k := by
        have := eq_of_beq hk
        exact this
      subst this
      simp [rowSet, rowGet, hk, h]

lemma rowGet_foldl_writes {β : Type} (f : β → PyVal) :
    ∀ (ws : List (String × β)) (r : Row) (k : String),
      (∀ kv ∈ ws, (kv.1 == k) = false) →
      rowGet (ws.foldl (fun acc kv => rowSet acc kv.1 (f kv.2)) r) k =
        rowGet r k := by
  intro ws
  induction ws with
  | nil => intro r k _; rfl
  | cons kv rest ih =>
    intro r k h
    simp only [List.foldl_cons]
    rw [ih _ _ (fun x hx => h x (List.mem_cons_of_mem kv hx))]
    exact rowGet_rowSet_ne r (f kv.2) (h kv (List.mem_cons_self kv rest))

/-- A JSON:API reference pair. -/
def mkRef (i t : String) : PyVal :=
  PyVal.dictV [("id", PyVal.strV i), ("type", PyVal.strV t)]

/-- The counterexample response for C1: the data item's `foo` relationship
carries exactly the id list `["1"]`, but a later relationship (`bar`)
resolves an included resource of type `foo` whose attribute `ids` inlines
under the colliding column name `foo_ids`, overwriting the encoded id
list. -/
def collideResp : PyVal := PyVal.dictV
  [("data", PyVal.listV [PyVal.dictV
     [("id", PyVal.strV "9"), ("type", PyVal.strV "t"),
      ("attributes", PyVal.dictV [("name", PyVal.strV "Bob")]),
      ("relationships", PyVal.dictV
        [("foo", PyVal.dictV [("data", PyVal.listV [mkRef "1" "x"])]),
         ("bar", PyVal.dictV [("data", PyVal.listV [mkRef "2" "foo"])])])]]),
   ("included", PyVal.listV [PyVal.dictV
     [("id", PyVal.strV "2"), ("type", PyVal.strV "foo"),
      ("attributes", PyVal.dictV [("ids", PyVal.strV "clobber")])]])]

/-- Counterexample for C1 as stated: in `collideResp` the item's `foo`
relationship maps to the single id `"1"`, yet the flattened row's
`foo_ids` column holds the inlined included attribute `"clobber"`, which
does not decode to (or even parse as) the id list — column collisions are
last-write-wins, so a later-processed relationship's inlined attributes
can replace `{relation}_ids`. -/
theorem C1_rel_ids_collision_counterexample :
    (process_jsonapi_response collideResp "e").length = 1 ∧
    rowGet ((process_jsonapi_response collideResp "e").headD [])
      "foo_ids" = Option.some (PyVal.strV "clobber") ∧
    jsonLoads "clobber" = Option.none ∧
    PyVal.strV "clobber" ≠
      PyVal.strV (jsonDumps (PyVal.listV [PyVal.strV "1"])) := by
  refine ⟨rfl, rfl, rfl, ?_⟩
  intro hc
  have : "clobber" = jsonDumps (PyVal.listV [PyVal.strV "1"]) :=
    PyVal.strV.inj hc
  exact absurd this (by decide)

/-- The C9 collision response with the two included resources in one
order… -/
def conflateResp1 : PyVal := PyVal.dictV
  [("data", PyVal.listV [PyVal.dictV
     [("id", PyVal.strV "7"), ("type", PyVal.strV "w"),
      ("attributes", PyVal.dictV []),
      ("relationships", PyVal.dictV
        [("r", PyVal.dictV [("data", mkRef "1_a" "b")])])]]),
   ("included", PyVal.listV
     [PyVal.dictV [("id", PyVal.strV "1_a"), ("type", PyVal.strV "b"),
        ("attributes", PyVal.dictV [("x", PyVal.strV "first")])],
      PyVal.dictV [("id", PyVal.strV "1"), ("type", PyVal.strV "a_b"),
        ("attributes", PyVal.dictV [("x", PyVal.strV "second")])]])]

/-- …and in the other order. -/
def conflateResp2 : PyVal := PyVal.dictV
  [("data", PyVal.listV [PyVal.dictV
     [("id", PyVal.strV "7"), ("type", PyVal.strV "w"),
      ("attributes", PyVal.dictV []),
      ("relationships", PyVal.dictV
        [("r", PyVal.dictV [("data", mkRef "1_a" "b")])])]]),
   ("included", PyVal.listV
     [PyVal.dictV [("id", PyVal.strV "1"), ("type", PyVal.strV "a_b"),
        ("attributes", PyVal.dictV [("x", PyVal.strV "second")])],
      PyVal.dictV [("id", PyVal.strV "1_a"), ("type", PyVal.strV "b"),
        ("attributes", PyVal.dictV [("x", PyVal.strV "first")])]])]

/-- C9: the included lookup is keyed by the f-string `{id}_{type}`, so the
distinct resources (id `"1_a"`, type `"b"`) and (id `"1"`, type `"a_b"`)
share the key `"1_a_b"` and are conflated: the relationship reference to
(`"1_a"`, `"b"`) inlines the attributes of whichever of the two was
inserted last — `"second"` (from the other resource) in one included
order, `"first"` in the other. -/
theorem C9_included_lookup_key_conflation :
    rowGet ((process_jsonapi_response conflateResp1 "e").headD []) "b_x" =
      Option.some (PyVal.strV "second") ∧
    rowGet ((process_jsonapi_response conflateResp2 "e").headD []) "b_x" =
      Option.some (PyVal.strV "first") := ⟨rfl, rfl⟩

/-- Counterexample for C5 as stated: a data item missing both its type and
id is NOT skipped — it produces a row whose primary-key column (named
`_id`, from the empty type default) holds the missing id as null. -/
theorem C5_malformed_item_counterexample :
    process_jsonapi_response (PyVal.dictV
      [("data", PyVal.listV [PyVal.dictV []])]) "e" =
      [[("_id", PyVal.noneV)]] ∧
    process_jsonapi_response (PyVal.dictV
      [("data", PyVal.listV [PyVal.dictV []])]) "e" ≠ [] := by
  have h1 : process_jsonapi_response (PyVal.dictV
      [("data", PyVal.listV [PyVal.dictV []])]) "e" =
      [[("_id", PyVal.noneV)]] := rfl
  refine ⟨h1, ?_⟩
  rw [h1]
  simp

/-- C5 amended: (1) a data item is never skipped for a missing type or id
— any dict item (its id and type values arbitrary, in particular absent)
yields exactly one row whose `{type}_id` primary-key cell holds the
(possibly null) id, provided no attribute reuses the primary-key column
name; (2) what IS skipped are malformed `included` items: one whose id or
type is falsy contributes nothing to the attribute-inlining lookup;
(3) a page-level processing exception (here a non-dict data item, which
raises on `.get`) makes `process_jsonapi_response` return the empty list
for the whole page rather than raising — dropping even the well-formed
items of that page. -/
theorem C5_malformed_and_page_errors_amended :
    (∀ (idv tyv : PyVal) (attrs : List (String × PyVal)),
      (∀ kv ∈ attrs, (kv.1 == pyStr tyv ++ "_id") = false) →
      process_jsonapi_response (PyVal.dictV [("data", PyVal.listV
        [PyVal.dictV [("id", idv), ("type", tyv),
          ("attributes", PyVal.dictV attrs),
          ("relationships", PyVal.dictV [])]])]) "e" =
        [attrs.foldl (fun acc kv =>
            rowSet acc kv.1 (convert_complex_type_to_json kv.2))
          [(pyStr tyv ++ "_id", idv)]] ∧
      rowGet (attrs.foldl (fun acc kv =>
            rowSet acc kv.1 (convert_complex_type_to_json kv.2))
          [(pyStr tyv ++ "_id", idv)]) (pyStr tyv ++ "_id") =
        Option.some idv) ∧
    (∀ (fs : List (String × PyVal)) (rest : List PyVal),
      (pyTruthy ((rowGet fs "id").getD PyVal.noneV) = false ∨
       pyTruthy ((rowGet fs "type").getD (PyVal.strV "")) = false) →
      includedLookup (PyVal.dictV fs :: rest) = includedLookup rest) ∧
    process_jsonapi_response (PyVal.dictV [("data", PyVal.listV
      [PyVal.intV 5,
       PyVal.dictV [("id", PyVal.strV "1"), ("type", PyVal.strV "g")]])])
      "e" = [] := by
  refine ⟨?_, ?_, rfl⟩
  · intro idv tyv attrs hattr
    constructor
    · rfl
    · rw [rowGet_foldl_writes convert_complex_type_to_json attrs _ _ hattr]
      simp [rowGet]
  · intro fs rest h
    have hb : (pyTruthy ((rowGet fs "id").getD PyVal.noneV) &&
        pyTruthy ((rowGet fs "type").getD (PyVal.strV ""))) = false := by
      rcases h with h | h <;> simp [h]
    have hstep : includedLookupStep [] (PyVal.dictV fs) = Except.ok [] := by
      unfold includedLookupStep
      dsimp only [pyGet]
      rw [hb]
    unfold includedLookup
    rw [List.foldlM_cons, hstep]
    rfl

/-- Witness for C5 at concrete inputs: the fully malformed item (no id, no
type) still yields its one row with a null `_id` cell, and an included
item with a falsy id is dropped from the lookup. -/
theorem C5_malformed_and_page_errors_amended_witness :
    (process_jsonapi_response (PyVal.dictV [("data", PyVal.listV
        [PyVal.dictV [("id", PyVal.noneV), ("type", PyVal.strV ""),
          ("attributes", PyVal.dictV []),
          ("relationships", PyVal.dictV [])]])]) "e" =
      [([] : List (String × PyVal)).foldl (fun acc kv =>
          rowSet acc kv.1 (convert_complex_type_to_json kv.2))
        [(pyStr (PyVal.strV "") ++ "_id", PyVal.noneV)]] ∧
     rowGet (([] : List (String × PyVal)).foldl (fun acc kv =>
          rowSet acc kv.1 (convert_complex_type_to_json kv.2))
        [(pyStr (PyVal.strV "") ++ "_id", PyVal.noneV)])
        (pyStr (PyVal.strV "") ++ "_id") = Option.some PyVal.noneV) ∧
    includedLookup
      [PyVal.dictV [("id", PyVal.strV ""), ("type", PyVal.strV "p")]] =
      includedLookup [] :=
  ⟨C5_malformed_and_page_errors_amended.1 PyVal.noneV (PyVal.strV "") []
      (by intro kv hkv; exact absurd hkv (List.not_mem_nil kv)),
   C5_malformed_and_page_errors_amended.2.1
      [("id", PyVal.strV ""), ("type", PyVal.strV "p")] []
      (Or.inl (by decide))⟩

/-! Round-trip of the `{relation}_ids` encoding: `json.loads` recovers the
id list that `json.dumps` encoded, for ids that are plain strings free of
characters the encoder would escape. -/

/-- A character `json.dumps` emits verbatim on the modelled fragment. -/
def jsonSafeChar (c : Char) : Bool :=
  !(c = '"' || c = '\\' || c = '\n' || c = '\t' || c = '\r')

/-- A string `json.dumps` emits verbatim (between its quotes). -/
def jsonSafe (s : String) : Bool := s.data.all jsonSafeChar


lemma jsonSafeChar_spec {c : Char} (h : jsonSafeChar c = true) :
    ¬(c = '"') ∧ ¬(c = '\\') ∧ ¬(c = '\n') ∧ ¬(c = '\t') ∧ ¬(c = '\r') := by
  unfold jsonSafeChar at h
  simp only [Bool.not_eq_true'] at h
  simp only [Bool.or_eq_false_iff, decide_eq_false_iff_not] at h
  exact ⟨h.1.1.1.1, h.1.1.1.2, h.1.1.2, h.1.2, h.2⟩

lemma jsonEscapeChar_safe {c : Char} (h : jsonSafeChar c = true) :
    jsonEscapeChar c = [c] := by
  obtain ⟨h1, h2, h3, h4, h5⟩ := jsonSafeChar_spec h
  unfold jsonEscapeChar
  rw [if_neg h1, if_neg h2, if_neg h3, if_neg h4, if_neg h5]

lemma flatMap_escape_safe : ∀ {cs : List Char}, cs.all jsonSafeChar = true →
    cs.flatMap jsonEscapeChar = cs := by
  intro cs
  induction cs with
  | nil => intro _; rfl
  | cons c t ih =>
    intro h
    obtain ⟨hc, ht⟩ : jsonSafeChar c = true ∧ t.all jsonSafeChar = true := by
      simpa using h
    rw [List.flatMap_cons, jsonEscapeChar_safe hc, ih ht]
    rfl

lemma jsonEscape_safe {s : String} (h : jsonSafe s = true) :
    jsonEscape s = s := by
  unfold jsonEscape
  rw [flatMap_escape_safe h]

lemma scanJStr_safe : ∀ (cs : List Char), cs.all jsonSafeChar = true →
    ∀ (rest : List Char),
      scanJStr (cs ++ '"' :: rest) = Option.some (cs, rest) := by
  intro cs
  induction cs with
  | nil =>
    intro _ rest
    simp [scanJStr.eq_def]
  | cons c t ih =>
    intro h rest
    obtain ⟨hc, ht⟩ : jsonSafeChar c = true ∧ t.all jsonSafeChar = true := by
      simpa using h
    obtain ⟨h1, h2, _⟩ := jsonSafeChar_spec hc
    rw [List.cons_append, scanJStr.eq_def]
    dsimp only
    rw [if_neg h1, if_neg h2, ih ht rest]
    rfl

lemma skipWs_not_ws {c : Char} (t : List Char) (h : c.isWhitespace = false) :
    skipWs (c :: t) = c :: t := by
  simp [skipWs, List.dropWhile_cons, h]

lemma jlVal_quoted (f : Nat) (s : String) (rest : List Char)
    (h : s.data.all jsonSafeChar = true) :
    jlVal (f + 1) ('"' :: s.data ++ '"' :: rest) =
      Option.some (PyVal.strV s, rest) := by
  show jlVal (Nat.succ f) ('"' :: (s.data ++ '"' :: rest)) = _
  rw [jlVal]
  rw [skipWs_not_ws _ (by decide)]
  dsimp only
  rw [if_neg (by decide : ¬('"' = '[')), if_pos rfl]
  rw [scanJStr_safe s.data h rest]

lemma jlVal_ws_cons (f : Nat) {c : Char} (t : List Char)
    (h : c.isWhitespace = true) :
    jlVal (f + 1) (c :: t) = jlVal (f + 1) t := by
  show jlVal (Nat.succ f) (c :: t) = jlVal (Nat.succ f) t
  rw [jlVal, jlVal]
  rw [show skipWs (c :: t) = skipWs t from by
    simp [skipWs, List.dropWhile_cons, h]]

/-- The characters of one double-quoted id. -/
def quoteChars (x : String) : List Char := '"' :: x.data ++ ['"']

/-- The characters of the comma-joined quoted id list, as `json.dumps`
renders the array body. -/
def sepChars : List String → List Char
  | [] => []
  | [x] => quoteChars x
  | x :: xs => quoteChars x ++ ',' :: ' ' :: sepChars xs

lemma jsonDumpsList_data_eq_sepChars :
    ∀ (ids : List String), (∀ x ∈ ids, jsonSafe x = true) →
      (jsonDumpsList (ids.map PyVal.strV)).data = sepChars ids := by
  intro ids
  induction ids with
  | nil => intro _; rfl
  | cons x xs ih =>
    intro h
    have hx : jsonSafe x = true := h x (List.mem_cons_self x xs)
    have hxs : ∀ y ∈ xs, jsonSafe y = true :=
      fun y hy => h y (List.mem_cons_of_mem x hy)
    cases xs with
    | nil =>
      show (jsonDumps (PyVal.strV x)).data = quoteChars x
      rw [jsonDumps, jsonEscape_safe hx]
      rw [String.data_append, String.data_append]
      rfl
    | cons y ys =>
      show (jsonDumps (PyVal.strV x) ++ ", " ++
        jsonDumpsList ((y :: ys).map PyVal.strV)).data =
        quoteChars x ++ ',' :: ' ' :: sepChars (y :: ys)
      rw [String.data_append, String.data_append]
      rw [show (jsonDumps (PyVal.strV x)).data = quoteChars x from by
        rw [jsonDumps, jsonEscape_safe hx, String.data_append,
          String.data_append]
        rfl]
      rw [ih hxs]
      simp [quoteChars]

lemma jlItems_ws_cons (f : Nat) {c : Char} (t : List Char)
    (h : c.isWhitespace = true) :
    jlItems (f + 1 + 1) (c :: t) = jlItems (f + 1 + 1) t := by
  show jlItems (Nat.succ (f + 1)) (c :: t) = jlItems (Nat.succ (f + 1)) t
  rw [jlItems, jlItems, jlVal_ws_cons f t h]

lemma jlItems_strs :
    ∀ (ids : List String) (x : String) (f : Nat) (rest : List Char),
      jsonSafe x = true → (∀ y ∈ ids, jsonSafe y = true) →
      2 * ids.length + 2 ≤ f →
      jlItems f (sepChars (x :: ids) ++ ']' :: rest) =
        Option.some ((x :: ids).map PyVal.strV, rest) := by
  intro ids
  induction ids with
  | nil =>
    intro x f rest hx _ hf
    obtain ⟨f1, rfl⟩ : ∃ f1, f = f1 + 1 := ⟨f - 1, by omega⟩
    obtain ⟨f2, rfl⟩ : ∃ f2, f1 = f2 + 1 := ⟨f1 - 1, by omega⟩
    show jlItems (Nat.succ (f2 + 1)) (quoteChars x ++ ']' :: rest) = _
    rw [jlItems]
    rw [show quoteChars x ++ ']' :: rest =
        ('"' :: x.data) ++ ('"' :: ']' :: rest) from by
      simp [quoteChars]]
    rw [jlVal_quoted f2 x (']' :: rest) hx]
    dsimp only
    rw [skipWs_not_ws _ (by decide)]
    dsimp only
    rw [if_neg (by decide : ¬(']' = ',')), if_pos rfl]
    rfl
  | cons y ys ih =>
    intro x f rest hx hall hf
    have hy : jsonSafe y = true := hall y (List.mem_cons_self y ys)
    have hys : ∀ z ∈ ys, jsonSafe z = true :=
      fun z hz => hall z (List.mem_cons_of_mem y hz)
    obtain ⟨f3, rfl⟩ : ∃ f3, f = f3 + 1 + 1 + 1 := ⟨f - 3, by simp at hf ⊢; omega⟩
    show jlItems (Nat.succ (f3 + 1 + 1))
      (sepChars (x :: y :: ys) ++ ']' :: rest) = _
    rw [jlItems]
    rw [show sepChars (x :: y :: ys) ++ ']' :: rest =
        ('"' :: x.data) ++ ('"' :: ',' :: ' ' ::
          (sepChars (y :: ys) ++ ']' :: rest)) from by
      show (quoteChars x ++ ',' :: ' ' :: sepChars (y :: ys)) ++ ']' :: rest = _
      simp [quoteChars]]
    rw [jlVal_quoted (f3 + 1) x _ hx]
    dsimp only
    rw [skipWs_not_ws _ (by decide)]
    dsimp only
    rw [if_pos rfl]
    rw [jlItems_ws_cons f3 _ (by decide)]
    rw [ih y (f3 + 1 + 1) rest hy hys (by simp at hf ⊢; omega)]
    rfl

lemma sepChars_length_ge : ∀ (x : String) (tail : List String),
    2 * tail.length ≤ (sepChars (x :: tail)).length := by
  intro x tail
  induction tail generalizing x with
  | nil => simp
  | cons y ys ih =>
    have := ih y
    show 2 * (ys.length + 1) ≤
      (quoteChars x ++ ',' :: ' ' :: sepChars (y :: ys)).length
    simp only [List.length_append, List.length_cons, quoteChars] at this ⊢
    omega

lemma sepChars_head : ∀ (x : String) (ids : List String),
    sepChars (x :: ids) = '"' :: (x.data ++
      (match ids with
       | [] => ['"']
       | _ :: _ => '"' :: ',' :: ' ' :: sepChars ids)) := by
  intro x ids
  cases ids with
  | nil =>
    show quoteChars x = _
    simp [quoteChars]
  | cons y ys =>
    show quoteChars x ++ ',' :: ' ' :: sepChars (y :: ys) = _
    simp [quoteChars]

lemma jsonLoads_dumps_ids (x : String) (ids : List String)
    (hx : jsonSafe x = true) (hall : ∀ y ∈ ids, jsonSafe y = true) :
    jsonLoads (jsonDumps (PyVal.listV ((x :: ids).map PyVal.strV))) =
      Option.some (PyVal.listV ((x :: ids).map PyVal.strV)) := by
  have hdata : (jsonDumps (PyVal.listV ((x :: ids).map PyVal.strV))).data =
      '[' :: (sepChars (x :: ids) ++ [']']) := by
    show (("[" ++ jsonDumpsList ((x :: ids).map PyVal.strV)) ++ "]").data = _
    rw [String.data_append, String.data_append]
    rw [jsonDumpsList_data_eq_sepChars (x :: ids)
      (by
        intro z hz
        rcases List.mem_cons.mp hz with h | h
        · rw [h]; exact hx
        · exact hall z h)]
    simp
  unfold jsonLoads
  rw [hdata]
  obtain ⟨st, hst⟩ : ∃ st, sepChars (x :: ids) = '"' :: st :=
    ⟨_, sepChars_head x ids⟩
  have hlen : ('[' :: (sepChars (x :: ids) ++ [']'])).length + 1 =
      (st.length + 3) + 1 := by
    rw [hst]
    simp
  rw [hlen]
  rw [show jlVal (st.length + 3 + 1) ('[' :: (sepChars (x :: ids) ++ [']'])) =
      jlVal (Nat.succ (st.length + 3))
        ('[' :: (sepChars (x :: ids) ++ [']'])) from rfl]
  rw [jlVal]
  rw [skipWs_not_ws _ (by decide)]
  dsimp only
  rw [if_pos rfl]
  rw [hst, List.cons_append]
  rw [skipWs_not_ws _ (by decide)]
  dsimp only
  rw [if_neg (by decide : ¬('"' = ']'))]
  rw [← List.cons_append, ← hst]
  rw [show sepChars (x :: ids) ++ [']'] =
      sepChars (x :: ids) ++ ']' :: [] from rfl]
  rw [jlItems_strs ids x (st.length + 3) [] hx hall
    (by
      have h1 := sepChars_length_ge x ids
      rw [hst] at h1
      simp only [List.length_cons] at h1
      omega)]
  rfl

/-! Decomposition lemmas for the `Except`-monad folds of the flattener. -/

lemma mapM_ok_append {α β : Type} (f : α → Except String β) :
    ∀ (l1 l2 : List α) (r : List β),
      (l1 ++ l2).mapM f = Except.ok r →
      ∃ r1 r2, l1.mapM f = Except.ok r1 ∧ l2.mapM f = Except.ok r2 ∧
        r = r1 ++ r2 ∧ r1.length = l1.length := by
  intro l1
  induction l1 with
  | nil =>
    intro l2 r h
    exact ⟨[], r, rfl, h, rfl, rfl⟩
  | cons a t ih =>
    intro l2 r h
    rw [List.cons_append, List.mapM_cons] at h
    cases hfa : f a with
    | error e =>
      rw [hfa] at h
      exact Except.noConfusion (h : Except.error e = Except.ok r)
    | ok b =>
      rw [hfa] at h
      have h2 : ((t ++ l2).mapM f >>= fun bs => pure (b :: bs)) =
          Except.ok r := h
      cases hrest : (t ++ l2).mapM f with
      | error e =>
        rw [hrest] at h2
        exact Except.noConfusion (h2 : Except.error e = Except.ok r)
      | ok bs =>
        rw [hrest] at h2
        have h3 : r = b :: bs := by
          have h4 : Except.ok (b :: bs) = Except.ok r := h2
          injection h4 with h5
          exact h5.symm
        obtain ⟨r1, r2, e1, e2, e3, e4⟩ := ih l2 bs hrest
        refine ⟨b :: r1, r2, ?_, e2, ?_, ?_⟩
        · rw [List.mapM_cons, hfa]
          have : (Except.ok b >>= fun b0 => t.mapM f >>=
              fun bs0 => pure (b0 :: bs0)) =
              (t.mapM f >>= fun bs0 => pure (b :: bs0)) := rfl
          rw [this, e1]
          rfl
        · rw [h3, e3]
          rfl
        · simp [e4]
  
lemma mapM_ok_cons {α β : Type} (f : α → Except String β) (a : α)
    (l : List α) (r : List β) (h : (a :: l).mapM f = Except.ok r) :
    ∃ b bs, f a = Except.ok b ∧ l.mapM f = Except.ok bs ∧ r = b :: bs := by
  rw [List.mapM_cons] at h
  cases hfa : f a with
  | error e =>
    rw [hfa] at h
    exact Except.noConfusion (h : Except.error e = Except.ok r)
  | ok b =>
    rw [hfa] at h
    have h2 : (l.mapM f >>= fun bs => pure (b :: bs)) = Except.ok r := h
    cases hrest : l.mapM f with
    | error e =>
      rw [hrest] at h2
      exact Except.noConfusion (h2 : Except.error e = Except.ok r)
    | ok bs =>
      rw [hrest] at h2
      have h4 : Except.ok (b :: bs) = Except.ok r := h2
      injection h4 with h5
      exact ⟨b, bs, rfl, rfl, h5.symm⟩

lemma foldlM_ok_append {α β : Type} (g : β → α → Except String β) :
    ∀ (l1 l2 : List α) (init : β) (r : β),
      (l1 ++ l2).foldlM g init = Except.ok r →
      ∃ mid, l1.foldlM g init = Except.ok mid ∧
        l2.foldlM g mid = Except.ok r := by
  intro l1
  induction l1 with
  | nil => intro l2 init r h; exact ⟨init, rfl, h⟩
  | cons a t ih =>
    intro l2 init r h
    rw [List.cons_append, List.foldlM_cons] at h
    cases hga : g init a with
    | error e =>
      rw [hga] at h
      exact Except.noConfusion (h : Except.error e = Except.ok r)
    | ok m =>
      rw [hga] at h
      have h2 : (t ++ l2).foldlM g m = Except.ok r := h
      obtain ⟨mid, e1, e2⟩ := ih l2 m r h2
      refine ⟨mid, ?_, e2⟩
      rw [List.foldlM_cons, hga]
      exact e1

lemma foldlM_ok_cons {α β : Type} (g : β → α → Except String β) (a : α)
    (l : List α) (init : β) (r : β)
    (h : (a :: l).foldlM g init = Except.ok r) :
    ∃ mid, g init a = Except.ok mid ∧ l.foldlM g mid = Except.ok r := by
  rw [List.foldlM_cons] at h
  cases hga : g init a with
  | error e =>
    rw [hga] at h
    exact Except.noConfusion (h : Except.error e = Except.ok r)
  | ok m =>
    rw [hga] at h
    exact ⟨m, rfl, h⟩

/-- The id a relationship reference contributes: for a dict reference,
its (defaulted) `id` value when truthy; nothing otherwise. -/
def refId : PyVal → Option PyVal
  | PyVal.dictV fs =>
    (match pyTruthy ((rowGet fs "id").getD PyVal.noneV) with
     | true => Option.some ((rowGet fs "id").getD PyVal.noneV)
     | false => Option.none)
  | _ => Option.none

lemma processRelItems_collects (lookup : Row) :
    ∀ (refs : List PyVal) (ids acc1 : List PyVal) (dd : Row)
      (res : List PyVal × Row),
      refs.mapM refId = Option.some ids →
      processRelItems lookup refs (acc1, dd) = Except.ok res →
      res.1 = acc1 ++ ids := by
  intro refs
  induction refs with
  | nil =>
    intro ids acc1 dd res hm hp
    have hids : ids = [] := by
      have : (Option.some [] : Option (List PyVal)) = Option.some ids := hm
      injection this with h
      exact h.symm
    subst hids
    have : Except.ok ((acc1, dd) : List PyVal × Row) = Except.ok res := hp
    injection this with h
    rw [← h]
    simp
  | cons ref rest ih =>
    intro ids acc1 dd res hm hp
    rw [List.mapM_cons] at hm
    cases hri : refId ref with
    | none =>
      rw [hri] at hm
      exact Option.noConfusion (hm : (Option.none : Option (List PyVal)) =
        Option.some ids)
    | some v =>
      rw [hri] at hm
      have hm2 : (rest.mapM refId >>= fun bs => pure (v :: bs)) =
          Option.some ids := hm
      cases hrm : rest.mapM refId with
      | none =>
        rw [hrm] at hm2
        exact Option.noConfusion (hm2 : (Option.none : Option (List PyVal)) =
          Option.some ids)
      | some tl =>
        rw [hrm] at hm2
        have hids : ids = v :: tl := by
          have : Option.some (v :: tl) = Option.some ids := hm2
          injection this with h
          exact h.symm
        subst hids
        obtain ⟨fs, hfs⟩ : ∃ fs, ref = PyVal.dictV fs := by
          cases ref <;> simp [refId] at hri
          exact ⟨_, rfl⟩
        subst hfs
        have hx : pyTruthy ((rowGet fs "id").getD PyVal.noneV) = true ∧
            (rowGet fs "id").getD PyVal.noneV = v := by
          have hri2 : (match pyTruthy ((rowGet fs "id").getD PyVal.noneV) with
              | true => Option.some ((rowGet fs "id").getD PyVal.noneV)
              | false => (Option.none : Option PyVal)) = Option.some v := hri
          cases ht : pyTruthy ((rowGet fs "id").getD PyVal.noneV)
          · rw [ht] at hri2
            exact Option.noConfusion hri2
          · rw [ht] at hri2
            refine ⟨rfl, ?_⟩
            injection hri2
        have hstep : processRelItems lookup (PyVal.dictV fs :: rest)
            (acc1, dd) =
            (if pyTruthy ((rowGet fs "id").getD PyVal.noneV) = true then
              (match rowGet lookup
                  (pyStr ((rowGet fs "id").getD PyVal.noneV) ++ "_" ++
                   pyStr ((rowGet fs "type").getD (PyVal.strV ""))) with
               | Option.some inc =>
                 (inlineIncluded ((rowGet fs "type").getD (PyVal.strV ""))
                     inc dd) >>= fun dd2 =>
                   processRelItems lookup rest
                     (acc1 ++ [(rowGet fs "id").getD PyVal.noneV], dd2)
               | Option.none =>
                 processRelItems lookup rest
                   (acc1 ++ [(rowGet fs "id").getD PyVal.noneV], dd))
            else processRelItems lookup rest (acc1, dd)) := rfl
        rw [hstep, if_pos hx.1] at hp
        rw [hx.2] at hp
        cases hlkp : rowGet lookup (pyStr v ++ "_" ++
            pyStr ((rowGet fs "type").getD (PyVal.strV ""))) with
        | some inc =>
          rw [hlkp] at hp
          have hp2 : ((inlineIncluded ((rowGet fs "type").getD (PyVal.strV ""))
              inc dd) >>= fun dd2 =>
                processRelItems lookup rest (acc1 ++ [v], dd2)) =
              Except.ok res := hp
          cases hinl : inlineIncluded ((rowGet fs "type").getD (PyVal.strV ""))
              inc dd with
          | error e =>
            rw [hinl] at hp2
            exact Except.noConfusion (hp2 : Except.error e = Except.ok res)
          | ok dd2 =>
            rw [hinl] at hp2
            have hp3 : processRelItems lookup rest (acc1 ++ [v], dd2) =
                Except.ok res := hp2
            have := ih tl (acc1 ++ [v]) dd2 res hrm hp3
            rw [this]
            simp
        | none =>
          rw [hlkp] at hp
          have hp2 : processRelItems lookup rest (acc1 ++ [v], dd) =
              Except.ok res := hp
          have := ih tl (acc1 ++ [v]) dd res hrm hp2
          rw [this]
          simp

lemma ids_key_ne_id_key (r : String) :
    ((r ++ "_ids") == (r ++ "_id")) = false := by
  rw [beq_eq_false_iff_ne]
  intro h
  have hl : (r ++ "_ids").length = (r ++ "_id").length :=
    congrArg String.length h
  rw [String.length_append, String.length_append] at hl
  have h4 : ("_ids" : String).length = 4 := rfl
  have h3 : ("_id" : String).length = 3 := rfl
  rw [h4, h3] at hl
  omega

lemma processRel_ok_ids (lookup : Row) (dd : Row) (rel_name : String)
    (refs : List PyVal) (x : PyVal) (xs : List PyVal) (r : Row)
    (hri : refs.mapM refId = Option.some (x :: xs))
    (hpr : processRel lookup dd rel_name
      (PyVal.dictV [("data", PyVal.listV refs)]) = Except.ok r) :
    rowGet r (rel_name ++ "_ids") =
      Option.some (PyVal.strV (jsonDumps (PyVal.listV (x :: xs)))) ∧
    (xs = [] → rowGet r (rel_name ++ "_id") = Option.some x) := by
  have e1 : processRel lookup dd rel_name
      (PyVal.dictV [("data", PyVal.listV refs)]) =
      ((processRelItems lookup refs ([], dd)) >>= fun res =>
        if !res.1.isEmpty then
          Except.ok (rowSet
            (match res.1 with
             | [x0] => rowSet res.2 (rel_name ++ "_id") x0
             | _ => res.2)
            (rel_name ++ "_ids")
            (convert_complex_type_to_json (PyVal.listV res.1)))
        else Except.ok res.2) := rfl
  rw [e1] at hpr
  cases hres : processRelItems lookup refs ([], dd) with
  | error e =>
    rw [hres] at hpr
    exact Except.noConfusion (hpr : Except.error e = Except.ok r)
  | ok res =>
    rw [hres] at hpr
    have hcol : res.1 = [] ++ (x :: xs) :=
      processRelItems_collects lookup refs (x :: xs) [] dd res hri hres
    have hres1 : res.1 = x :: xs := by rw [hcol]; rfl
    have hpr2 : (if !res.1.isEmpty then
        Except.ok (rowSet
          (match res.1 with
           | [x0] => rowSet res.2 (rel_name ++ "_id") x0
           | _ => res.2)
          (rel_name ++ "_ids")
          (convert_complex_type_to_json (PyVal.listV res.1)))
      else Except.ok res.2) = Except.ok r := hpr
    rw [hres1] at hpr2
    have hpr3 : Except.ok (rowSet
        (match x :: xs with
         | [x0] => rowSet res.2 (rel_name ++ "_id") x0
         | _ => res.2)
        (rel_name ++ "_ids")
        (convert_complex_type_to_json (PyVal.listV (x :: xs)))) =
        Except.ok r := hpr2
    have hr : r = rowSet
        (match x :: xs with
         | [x0] => rowSet res.2 (rel_name ++ "_id") x0
         | _ => res.2)
        (rel_name ++ "_ids")
        (convert_complex_type_to_json (PyVal.listV (x :: xs))) := by
      injection hpr3 with h5
      exact h5.symm
    constructor
    · rw [hr, rowGet_rowSet_self]
      rfl
    · intro hxs
      subst hxs
      have hr2 : r = rowSet (rowSet res.2 (rel_name ++ "_id") x)
          (rel_name ++ "_ids")
          (convert_complex_type_to_json (PyVal.listV [x])) := hr
      rw [hr2, rowGet_rowSet_ne _ _ (ids_key_ne_id_key rel_name),
        rowGet_rowSet_self]

lemma foldlM_preserve_keys (lookup : Row) (k1 k2 : String) :
    ∀ (rels : List (String × PyVal)) (init fin : Row),
      (∀ kv ∈ rels, ∀ (acc acc2 : Row),
        processRel lookup acc kv.1 kv.2 = Except.ok acc2 →
        rowGet acc2 k1 = rowGet acc k1 ∧ rowGet acc2 k2 = rowGet acc k2) →
      rels.foldlM (fun acc kv => processRel lookup acc kv.1 kv.2) init =
        Except.ok fin →
      rowGet fin k1 = rowGet init k1 ∧ rowGet fin k2 = rowGet init k2 := by
  intro rels
  induction rels with
  | nil =>
    intro init fin _ h
    have h2 : Except.ok init = Except.ok fin := h
    injection h2 with h3
    rw [← h3]
    exact ⟨rfl, rfl⟩
  | cons kv rest ih =>
    intro init fin hpres h
    obtain ⟨mid, h1, h2⟩ := foldlM_ok_cons _ kv rest init fin h
    have h1b : processRel lookup init kv.1 kv.2 = Except.ok mid := h1
    have hkv := hpres kv (List.mem_cons_self kv rest) init mid h1b
    have hpres2 : ∀ kv2 ∈ rest, ∀ (acc acc2 : Row),
        processRel lookup acc kv2.1 kv2.2 = Except.ok acc2 →
        rowGet acc2 k1 = rowGet acc k1 ∧ rowGet acc2 k2 = rowGet acc k2 :=
      fun kv2 hm => hpres kv2 (List.mem_cons_of_mem kv hm)
    obtain ⟨a1, a2⟩ := ih mid fin hpres2 h2
    exact ⟨a1.trans hkv.1, a2.trans hkv.2⟩

/-- A JSON:API data item with the given id, type, attributes and
relationships. -/
def relItem (idv tyv : PyVal) (attrs : List (String × PyVal))
    (rels : List (String × PyVal)) : PyVal :=
  PyVal.dictV [("id", idv), ("type", tyv),
    ("attributes", PyVal.dictV attrs), ("relationships", PyVal.dictV rels)]

/-- A JSON:API response with the given data items and included
resources. -/
def relResp (items incl : List PyVal) : PyVal :=
  PyVal.dictV [("data", PyVal.listV items), ("included", PyVal.listV incl)]

/-- C1 (amended): for a data item whose relationships map `rel_name` to
k >= 1 references carrying string ids, the flattened row holds
`{rel_name}_ids` as the JSON encoding of exactly those ids in order
(round-trip: `jsonLoads` decodes it back to the same list), and when
k = 1 also `{rel_name}_id` with the single id — PROVIDED no
later-processed relationship of the same item writes those two columns
(`hpres`); without that proviso the property fails
(`C1_rel_ids_collision_counterexample`), because column collisions are
last-write-wins. -/
theorem C1_rel_ids_roundtrip_amended
    (pre post incl : List PyVal) (idv tyv : PyVal)
    (attrs rels1 rels2 : List (String × PyVal)) (rel_name : String)
    (refs : List PyVal) (x : String) (xs : List String)
    (lookup : Row) (rows : List Row)
    (hlk : includedLookup incl = Except.ok lookup)
    (hids : refs.mapM refId = Option.some ((x :: xs).map PyVal.strV))
    (hx : jsonSafe x = true) (hxs : ∀ y ∈ xs, jsonSafe y = true)
    (hpres : ∀ kv ∈ rels2, ∀ (acc acc2 : Row),
      processRel lookup acc kv.1 kv.2 = Except.ok acc2 →
      rowGet acc2 (rel_name ++ "_ids") = rowGet acc (rel_name ++ "_ids") ∧
      rowGet acc2 (rel_name ++ "_id") = rowGet acc (rel_name ++ "_id"))
    (hbody : processBody (relResp (pre ++ relItem idv tyv attrs
        (rels1 ++ (rel_name, PyVal.dictV [("data", PyVal.listV refs)])
          :: rels2) :: post) incl) = Except.ok rows) :
    process_jsonapi_response (relResp (pre ++ relItem idv tyv attrs
        (rels1 ++ (rel_name, PyVal.dictV [("data", PyVal.listV refs)])
          :: rels2) :: post) incl) "e" = rows ∧
    ∃ pref row suff, rows = pref ++ row :: suff ∧
      pref.length = pre.length ∧
      rowGet row (rel_name ++ "_ids") =
        Option.some (PyVal.strV (jsonDumps
          (PyVal.listV ((x :: xs).map PyVal.strV)))) ∧
      jsonLoads (jsonDumps (PyVal.listV ((x :: xs).map PyVal.strV))) =
        Option.some (PyVal.listV ((x :: xs).map PyVal.strV)) ∧
      (xs = [] → rowGet row (rel_name ++ "_id") =
        Option.some (PyVal.strV x)) := by
  have e1 : processBody (relResp (pre ++ relItem idv tyv attrs
      (rels1 ++ (rel_name, PyVal.dictV [("data", PyVal.listV refs)])
        :: rels2) :: post) incl) =
      (includedLookup incl >>= fun lk =>
        (pre ++ relItem idv tyv attrs
          (rels1 ++ (rel_name, PyVal.dictV [("data", PyVal.listV refs)])
            :: rels2) :: post).mapM (processItem lk)) := rfl
  have hb2 : (includedLookup incl >>= fun lk =>
      (pre ++ relItem idv tyv attrs
        (rels1 ++ (rel_name, PyVal.dictV [("data", PyVal.listV refs)])
          :: rels2) :: post).mapM (processItem lk)) = Except.ok rows := by
    rw [← e1]
    exact hbody
  rw [hlk] at hb2
  have hb3 : (pre ++ relItem idv tyv attrs
      (rels1 ++ (rel_name, PyVal.dictV [("data", PyVal.listV refs)])
        :: rels2) :: post).mapM (processItem lookup) = Except.ok rows := hb2
  obtain ⟨r1, r2, ha1, ha2, ha3, ha4⟩ :=
    mapM_ok_append (processItem lookup) pre _ rows hb3
  obtain ⟨row, rs, hone, hrest, hb5⟩ :=
    mapM_ok_cons (processItem lookup) _ post r2 ha2
  have e2 : processItem lookup (relItem idv tyv attrs
      (rels1 ++ (rel_name, PyVal.dictV [("data", PyVal.listV refs)])
        :: rels2)) =
      (rels1 ++ (rel_name, PyVal.dictV [("data", PyVal.listV refs)])
        :: rels2).foldlM
        (fun acc kv => processRel lookup acc kv.1 kv.2)
        (attrs.foldl (fun acc kv =>
          rowSet acc kv.1 (convert_complex_type_to_json kv.2))
          [(pyStr tyv ++ "_id", idv)]) := rfl
  rw [e2] at hone
  obtain ⟨mid1, hf1, hf2⟩ := foldlM_ok_append _ rels1 _ _ row hone
  obtain ⟨mid2, hstep, hf3⟩ := foldlM_ok_cons _ _ rels2 mid1 row hf2
  have hstep2 : processRel lookup mid1 rel_name
      (PyVal.dictV [("data", PyVal.listV refs)]) = Except.ok mid2 := hstep
  have hri2 : refs.mapM refId =
      Option.some (PyVal.strV x :: xs.map PyVal.strV) := hids
  obtain ⟨hc1, hc2⟩ := processRel_ok_ids lookup mid1 rel_name refs
    (PyVal.strV x) (xs.map PyVal.strV) mid2 hri2 hstep2
  obtain ⟨hp1, hp2⟩ := foldlM_preserve_keys lookup (rel_name ++ "_ids")
    (rel_name ++ "_id") rels2 mid2 row hpres hf3
  have hpj : process_jsonapi_response (relResp (pre ++ relItem idv tyv attrs
      (rels1 ++ (rel_name, PyVal.dictV [("data", PyVal.listV refs)])
        :: rels2) :: post) incl) "e" = rows := by
    unfold process_jsonapi_response
    rw [hbody]
  refine ⟨hpj, r1, row, rs, ?_, ha4, ?_, ?_, ?_⟩
  · rw [ha3, hb5]
  · exact hp1.trans hc1
  · exact jsonLoads_dumps_ids x xs hx hxs
  · intro hxs0
    subst hxs0
    exact hp2.trans (hc2 rfl)

/-- Witness for the amended C1 at a concrete page: one data item of type
`t` with a single `foo` reference to id `"1"`, no later relationships;
the row holds `foo_ids` as `["1"]` (decoding back to the id list) and
`foo_id` as `"1"`. -/
theorem C1_rel_ids_roundtrip_amended_witness :
    process_jsonapi_response (relResp [relItem (PyVal.strV "9")
        (PyVal.strV "t") []
        [("foo", PyVal.dictV [("data", PyVal.listV [mkRef "1" "x"])])]] [])
        "e" =
      [[("t_id", PyVal.strV "9"), ("foo_id", PyVal.strV "1"),
        ("foo_ids", PyVal.strV "[\"1\"]")]] ∧
    ∃ pref row suff,
      ([[("t_id", PyVal.strV "9"), ("foo_id", PyVal.strV "1"),
        ("foo_ids", PyVal.strV "[\"1\"]")]] : List Row) =
        pref ++ row :: suff ∧
      pref.length = ([] : List PyVal).length ∧
      rowGet row ("foo" ++ "_ids") =
        Option.some (PyVal.strV (jsonDumps
          (PyVal.listV ((["1"] : List String).map PyVal.strV)))) ∧
      jsonLoads (jsonDumps
          (PyVal.listV ((["1"] : List String).map PyVal.strV))) =
        Option.some (PyVal.listV ((["1"] : List String).map PyVal.strV)) ∧
      (([] : List String) = [] → rowGet row ("foo" ++ "_id") =
        Option.some (PyVal.strV "1")) :=
  C1_rel_ids_roundtrip_amended [] [] [] (PyVal.strV "9") (PyVal.strV "t")
    [] [] [] "foo" [mkRef "1" "x"] "1" [] []
    [[("t_id", PyVal.strV "9"), ("foo_id", PyVal.strV "1"),
      ("foo_ids", PyVal.strV "[\"1\"]")]]
    rfl rfl rfl
    (by intro y hy; exact absurd hy (List.not_mem_nil y))
    (by intro kv hkv; exact absurd hkv (List.not_mem_nil kv))
    rfl
